import Mathlib

/-!
# SpecialK: thread-local scratch stores (`include/SpecialK/tls.h`)

A shallow embedding of the grow-only scratch stores `SK_TLS_HeapDataStore`,
`SK_TLS_LocalDataStore` and `SK_D3D9_ThreadContext::scratch_mem_s`, of the texture pool
`SK_DXTex_ThreadContext`, of the destructor of `SK_TLS` and of the guard `SK_ScopedBool`;
of `Limiter::suspend` / `resume` and `Stats::calcHitches` (`include/SpecialK/framerate.h`);
and of the shell-hook functions of `src/injection/injection.cpp`.

* Pointers are natural numbers, `nullptr` is `0`.
* Memory is a flat map from byte addresses to byte values.
* `size_t` arithmetic wraps modulo `SIZE_MAX + 1`.
* Every call that leaves the class (the CRT allocator, the `SK_Local*` wrappers, the
  leak-report hook) is recorded, in program order, in a trace of `Event`s.
* The address an allocator hands back is an input of the operation (`r`); `r = 0` is an
  allocation failure.
* `assert (c)` with `c` false is recorded as `Event.assert_failed`.  Nothing in the sources
  defines `NDEBUG`, so the assertions are live and the program stops there: a call whose
  trace holds that event does not return (`returns`, `ReclaimResult.value`).  The `store`
  and `ret` recorded next to the event are what a build with `NDEBUG` would go on with.
-/

set_option autoImplicit false
set_option linter.unnecessarySeqFocus false

namespace SpecialK

/-- Flat byte-addressed memory: the byte stored at every address. -/
abbrev Mem := Nat → Nat

/-- The null pointer. -/
def nullptr : Nat := 0

/-- The instantiation environment of a store template: the largest `size_t` of the
target and `sizeof (_T)` of the element type. -/
structure Env where
  SIZE_MAX : Nat
  sizeof_T : Nat
  deriving DecidableEq, Repr

/-- Reduction of a mathematical value to `size_t`. -/
def Env.wrap (E : Env) (x : Nat) : Nat := x % (E.SIZE_MAX + 1)

/-- The expression `count * sizeof (_T)` evaluated in `size_t`. -/
def Env.bytes (E : Env) (count : Nat) : Nat := E.wrap (count * E.sizeof_T)

/-- Element type `char` on a 64-bit target. -/
def char64 : Env := { SIZE_MAX := 2 ^ 64 - 1, sizeof_T := 1 }

/-- Element type `BYTE` (`unsigned char`) on a 64-bit target. -/
def BYTE64 : Env := { SIZE_MAX := 2 ^ 64 - 1, sizeof_T := 1 }

/-- Element type `wchar_t` (two bytes on Windows) on a 64-bit target. -/
def wchar64 : Env := { SIZE_MAX := 2 ^ 64 - 1, sizeof_T := 2 }

/-- Element type `wchar_t` (two bytes on Windows) on a 32-bit target. -/
def wchar32 : Env := { SIZE_MAX := 2 ^ 32 - 1, sizeof_T := 2 }

/-- The calls that leave the store classes, with their arguments (and, for the
allocators, the pointer they returned). -/
inductive Event where
  | aligned_free (p : Nat)
  | aligned_malloc (size alignment ret : Nat)
  | SK_LocalFree (hMem : Nat)
  | SK_LocalAlloc (uFlags uBytes ret : Nat)
  | SK_TLS_LogLeak (line size : Nat)
  | assert_failed
  deriving DecidableEq, Repr

/-- Whether the event is a call of the leak-report hook. -/
def Event.isLogLeak : Event → Bool
  | .SK_TLS_LogLeak _ _ => true
  | _ => false

/-- Whether the event hands storage back to an allocator. -/
def Event.isRelease : Event → Bool
  | .aligned_free _ => true
  | .SK_LocalFree _ => true
  | _ => false

/-- Whether the event asks an allocator for storage. -/
def Event.isAllocation : Event → Bool
  | .aligned_malloc _ _ _ => true
  | .SK_LocalAlloc _ _ _ => true
  | _ => false

/-- Whether the event is an allocation request that the allocator turned down. -/
def Event.isFailedAllocation : Event → Bool
  | .aligned_malloc _ _ ret => decide (ret = nullptr)
  | .SK_LocalAlloc _ _ ret => decide (ret = nullptr)
  | _ => false

/-- Number of leak reports in a trace. -/
def leakReports (t : List Event) : Nat := t.countP Event.isLogLeak

/-- Number of releases in a trace. -/
def releases (t : List Event) : Nat := t.countP Event.isRelease

/-- Number of allocation requests in a trace. -/
def allocations (t : List Event) : Nat := t.countP Event.isAllocation

/-- Every allocation request of the trace was granted. -/
def allocationsSucceed (t : List Event) : Bool := t.all (fun e => !e.isFailedAllocation)

/-- The C library `memset`: `count` bytes from `dest` on become `c`. -/
def memset (mem : Mem) (dest c count : Nat) : Mem :=
  fun a => if dest ≤ a ∧ a < dest + count then c else mem a

/-- The Windows `RtlZeroMemory`. -/
def RtlZeroMemory (mem : Mem) (dest count : Nat) : Mem := memset mem dest 0 count

/-- Windows `LMEM_FIXED`. -/
def LMEM_FIXED : Nat := 0x0000

/-- Windows `LMEM_ZEROINIT`. -/
def LMEM_ZEROINIT : Nat := 0x0040

/-- Windows `LPTR`, that is `LMEM_FIXED | LMEM_ZEROINIT`. -/
def LPTR : Nat := 0x0040

/-- Modelled from the spec: `SK_LocalAlloc` is only declared in `tls.h`; it is the legacy
"local" allocator with an optional zero-on-allocate flag.  It returns the address `r` chosen
by the system (`0` on failure); a granted block of `uBytes` bytes is zero-filled when
`uFlags` carries `LMEM_ZEROINIT`. -/
def SK_LocalAlloc (mem : Mem) (uFlags uBytes r : Nat) : Nat × Mem :=
  (r, if r ≠ nullptr ∧ uFlags &&& LMEM_ZEROINIT ≠ 0 then memset mem r 0 uBytes else mem)

/-- The data members `data` and `len`, declared alike (with the same default
initialisers) by `SK_TLS_HeapDataStore <_T>` and `SK_TLS_LocalDataStore <_T>`. -/
structure SK_TLS_DataStore where
  data : Nat := nullptr
  len : Nat := 0
  deriving DecidableEq, Repr

/-- What an `alloc` call leaves behind: the store, the memory, the returned pointer and the
outgoing calls. -/
structure AllocResult where
  store : SK_TLS_DataStore
  mem : Mem
  ret : Nat
  trace : List Event

/-- What a `reclaim` call leaves behind: the store, the returned value and the outgoing
calls. -/
structure ReclaimResult (σ : Type) where
  store : σ
  ret : Nat
  trace : List Event
  deriving DecidableEq, Repr

/-- Whether a call with this trace comes back to its caller: with assertions live, a failed
`assert` stops the program. -/
def returns (t : List Event) : Bool := !t.contains Event.assert_failed

/-- The value a `reclaim ()` call hands to its caller: `none` when the program was stopped
by a failed assertion. -/
def ReclaimResult.value {σ : Type} (o : ReclaimResult σ) : Option Nat :=
  if returns o.trace = true then some o.ret else none

/-- The data members of `SK_D3D9_ThreadContext::scratch_mem_s`, with their default
initialisers. -/
structure scratch_mem_s where
  storage : Nat := nullptr
  size : Nat := 0
  deriving DecidableEq, Repr

/-- `SK_TLS_HeapDataStore::alloc (needed, zero_fill)`; `r` is what `_aligned_malloc`
returns if it is called. -/
def SK_TLS_HeapDataStore.alloc (E : Env) (self : SK_TLS_DataStore) (mem : Mem)
    (needed : Nat) (zero_fill : Bool) (r : Nat) : AllocResult :=
  let grown : SK_TLS_DataStore × List Event :=
    if self.data = nullptr ∨ self.len < needed then
      let t0 : List Event :=
        if self.data ≠ nullptr ∧ self.len > 0 then [Event.aligned_free self.data] else []
      let len := max self.len needed
      let data := r
      let t1 := t0 ++ [Event.aligned_malloc (E.bytes len) 16 data]
      if data = nullptr then ({ data := data, len := 0 }, t1)
      else ({ data := data, len := len }, t1)
    else (self, [])
  let mem1 : Mem :=
    if zero_fill = true ∧ grown.1.data ≠ nullptr then
      memset mem grown.1.data 0 (E.bytes needed)
    else mem
  { store := grown.1, mem := mem1, ret := grown.1.data, trace := grown.2 }

/-- `SK_TLS_HeapDataStore::reclaim ()`. -/
def SK_TLS_HeapDataStore.reclaim (E : Env) (self : SK_TLS_DataStore) :
    ReclaimResult SK_TLS_DataStore :=
  if self.len > 0 then
    if self.data ≠ nullptr then
      let freed := self.len
      { store := { data := nullptr, len := 0 }
        ret := E.bytes freed
        trace := [Event.aligned_free self.data] }
    else
      { store := { data := self.data, len := 0 }
        ret := 0
        trace := [Event.SK_TLS_LogLeak 154 self.len] }
  else
    { store := self, ret := 0, trace := [] }

/-- `SK_TLS_HeapDataStore::empty ()`. -/
def SK_TLS_HeapDataStore.empty (self : SK_TLS_DataStore) : Bool :=
  decide (self.data = nullptr) || decide (self.len = 0)

/-- `SK_TLS_LocalDataStore::alloc (needed, zero_fill)`; `r` is what the system hands to
`SK_LocalAlloc` if it is called. -/
def SK_TLS_LocalDataStore.alloc (E : Env) (self : SK_TLS_DataStore) (mem : Mem)
    (needed : Nat) (zero_fill : Bool) (r : Nat) : AllocResult :=
  if self.data = nullptr ∨ self.len < needed then
    let t0 : List Event :=
      if self.data ≠ nullptr then [Event.SK_LocalFree self.data] else []
    let uFlags := if zero_fill = true then LPTR else LMEM_FIXED
    let len := max self.len needed
    let got := SK_LocalAlloc mem uFlags (E.bytes len) r
    let data := got.1
    let t1 := t0 ++ [Event.SK_LocalAlloc uFlags (E.bytes len) data]
    if data = nullptr then
      { store := { data := data, len := 0 }, mem := got.2, ret := data, trace := t1 }
    else
      { store := { data := data, len := len }, mem := got.2, ret := data, trace := t1 }
  else if zero_fill = true then
    { store := self
      mem := RtlZeroMemory mem self.data (E.bytes needed)
      ret := self.data
      trace := [] }
  else
    { store := self, mem := mem, ret := self.data, trace := [] }

/-- `SK_TLS_LocalDataStore::reclaim ()`.  In the `len == 0` branch a false
`assert (data == nullptr)` is recorded as `Event.assert_failed`: the program stops there and
the call does not return (`returns` is false, `ReclaimResult.value` is `none`). -/
def SK_TLS_LocalDataStore.reclaim (E : Env) (self : SK_TLS_DataStore) :
    ReclaimResult SK_TLS_DataStore :=
  if self.len > 0 then
    if self.data ≠ nullptr then
      let freed := self.len
      { store := { data := nullptr, len := 0 }
        ret := E.bytes freed
        trace := [Event.SK_LocalFree self.data] }
    else
      { store := { data := self.data, len := 0 }
        ret := 0
        trace := [Event.SK_TLS_LogLeak 233 self.len] }
  else
    { store := self
      ret := 0
      trace := if self.data = nullptr then [] else [Event.assert_failed] }

/-- `SK_TLS_LocalDataStore::empty ()`. -/
def SK_TLS_LocalDataStore.empty (self : SK_TLS_DataStore) : Bool :=
  decide (self.data = nullptr) || decide (self.len = 0)

/-- `SK_D3D9_ThreadContext::scratch_mem_s::reclaim ()`; `size` is a `uint32_t`.  In the
`size == 0` branch a false `assert (storage == nullptr)` is recorded as
`Event.assert_failed`: the program stops there and the call does not return. -/
def scratch_mem_s.reclaim (self : scratch_mem_s) : ReclaimResult scratch_mem_s :=
  if self.size > 0 then
    if self.storage ≠ nullptr then
      let orig_size := self.size
      { store := { storage := self.storage, size := 0 }
        ret := orig_size
        trace := [Event.aligned_free self.storage] }
    else
      { store := { storage := self.storage, size := 0 }
        ret := 0
        trace := [Event.SK_TLS_LogLeak 337 self.size] }
  else
    { store := self
      ret := 0
      trace := if self.storage = nullptr then [] else [Event.assert_failed] }

/-- One call of a public operation of a store.  For `alloc`, `r` is the address the
underlying allocator returns if this call reaches it. -/
inductive Op where
  | alloc (needed : Nat) (zero_fill : Bool) (r : Nat)
  | reclaim
  deriving DecidableEq, Repr

/-- The two backing-store policies of the scratch buffer: `SK_TLS_HeapDataStore` and
`SK_TLS_LocalDataStore`. -/
inductive Policy where
  | Heap
  | Local
  deriving DecidableEq, Repr

/-- The `alloc` member of the store class of the policy. -/
def Policy.alloc : Policy → Env → SK_TLS_DataStore → Mem → Nat → Bool → Nat → AllocResult
  | .Heap => SK_TLS_HeapDataStore.alloc
  | .Local => SK_TLS_LocalDataStore.alloc

/-- The `reclaim` member of the store class of the policy. -/
def Policy.reclaim : Policy → Env → SK_TLS_DataStore → ReclaimResult SK_TLS_DataStore
  | .Heap => SK_TLS_HeapDataStore.reclaim
  | .Local => SK_TLS_LocalDataStore.reclaim

/-- The `empty` member of the store class of the policy. -/
def Policy.empty : Policy → SK_TLS_DataStore → Bool
  | .Heap => SK_TLS_HeapDataStore.empty
  | .Local => SK_TLS_LocalDataStore.empty

/-- The release call of the allocator of the policy. -/
def Policy.release : Policy → Nat → Event
  | .Heap => Event.aligned_free
  | .Local => Event.SK_LocalFree

/-- A store together with the memory and the trace of everything done so far. -/
structure Run where
  store : SK_TLS_DataStore
  mem : Mem
  trace : List Event

/-- One public call on a store. -/
def Policy.step (p : Policy) (E : Env) (st : Run) : Op → Run
  | .alloc needed zero_fill r =>
    let o := p.alloc E st.store st.mem needed zero_fill r
    { store := o.store, mem := o.mem, trace := st.trace ++ o.trace }
  | .reclaim =>
    let o := p.reclaim E st.store
    { store := o.store, mem := st.mem, trace := st.trace ++ o.trace }

/-- A sequence of public calls on a store. -/
def Policy.run (p : Policy) (E : Env) (st : Run) (ops : List Op) : Run :=
  ops.foldl (p.step E) st

/-- A freshly constructed store, before any call. -/
def fresh (mem : Mem) : Run :=
  { store := {}, mem := mem, trace := [] }

/-- The predicate "null storage implies zero length": the state `len > 0` with null
storage does not occur. -/
def SK_TLS_DataStore.legal (s : SK_TLS_DataStore) : Prop :=
  s.data = nullptr → s.len = 0

instance (s : SK_TLS_DataStore) : Decidable s.legal := by
  unfold SK_TLS_DataStore.legal
  infer_instance

/-- An `alloc (needed)` request with the default `zero_fill = false`. -/
structure AllocCall where
  needed : Nat
  zero_fill : Bool := false
  r : Nat
  deriving DecidableEq, Repr

/-- The call as an operation. -/
def AllocCall.op (c : AllocCall) : Op := .alloc c.needed c.zero_fill c.r

/-- The largest element count asked for, `0` for no call at all. -/
def maxNeeded (calls : List AllocCall) : Nat :=
  calls.foldl (fun m c => max m c.needed) 0

/-- The bytes of element `i` of a buffer of `sz`-byte elements that starts at `base`. -/
def element (mem : Mem) (base sz i : Nat) : List Nat :=
  (List.range sz).map (fun j => mem (base + i * sz + j))

/-- Memory in which every byte is `0xCD`. -/
def junk : Mem := fun _ => 0xCD

/-- The byte counts of the allocation requests of a trace, in program order. -/
def requestedSizes (t : List Event) : List Nat :=
  t.filterMap fun e =>
    match e with
    | .aligned_malloc size _ _ => some size
    | .SK_LocalAlloc _ uBytes _ => some uBytes
    | _ => none

/-- What a caller can see of the bookkeeping of one call: the allocation requests the call
issued, whether the pointer returned by `alloc` is null (for `reclaim`, the value returned),
and the `len`, the null-ness of `data` and the value of `empty ()` afterwards; or that the
program was stopped by a failed assertion during the call. -/
inductive Observed where
  | alloc (requests : List Nat) (retIsNull : Bool) (len : Nat) (dataIsNull : Bool)
      (empty : Bool)
  | reclaim (requests : List Nat) (ret : Nat) (len : Nat) (dataIsNull : Bool) (empty : Bool)
  | stopped
  deriving DecidableEq, Repr

/-- The bookkeeping seen when one public call is made on a store. -/
def Policy.observe (p : Policy) (E : Env) (st : Run) : Op → Observed
  | .alloc needed zero_fill r =>
    let o := p.alloc E st.store st.mem needed zero_fill r
    if returns o.trace = true then
      .alloc (requestedSizes o.trace) (decide (o.ret = nullptr)) o.store.len
        (decide (o.store.data = nullptr)) (p.empty o.store)
    else .stopped
  | .reclaim =>
    let o := p.reclaim E st.store
    if returns o.trace = true then
      .reclaim (requestedSizes o.trace) o.ret o.store.len
        (decide (o.store.data = nullptr)) (p.empty o.store)
    else .stopped

/-- The bookkeeping seen, call after call, along a sequence of public calls; nothing is
seen after the call at which the program was stopped. -/
def Policy.observations (p : Policy) (E : Env) : Run → List Op → List Observed
  | _, [] => []
  | st, op :: ops =>
    if p.observe E st op = Observed.stopped then [Observed.stopped]
    else p.observe E st op :: Policy.observations p E (p.step E st op) ops

/-- The enumeration `SK_TLS_CleanupReason_e`. -/
inductive SK_TLS_CleanupReason_e where
  | Periodic
  | Unload
  deriving DecidableEq, Repr

/-- The enumerator values of `SK_TLS_CleanupReason_e`. -/
def SK_TLS_CleanupReason_e.value : SK_TLS_CleanupReason_e → Nat
  | .Periodic => 1
  | .Unload => 2

/-- `DWORD` arithmetic is modulo `2 ^ 32`. -/
def DWORD_MOD : Nat := 2 ^ 32

/-- The data members of `SK_DXTex_ThreadContext`, with their default initialisers. -/
structure SK_DXTex_ThreadContext where
  buffer : Nat := nullptr
  reserve : Nat := 0
  last_realloc : Nat := 0
  last_trim : Nat := 0
  deriving DecidableEq, Repr

/-- `SK_DXTex_ThreadContext::_TimeBetweenTrims`, in milliseconds. -/
def SK_DXTex_ThreadContext._TimeBetweenTrims : Nat := 30000

/-- `SK_DXTex_ThreadContext::_SlackSpace`, in bytes: `(8192UL << 10UL)`. -/
def SK_DXTex_ThreadContext._SlackSpace : Nat := 8192 <<< 10

/-- The time, in `DWORD` milliseconds, between the last allocation and the clock reading
`now`. -/
def SK_DXTex_ThreadContext.idle (self : SK_DXTex_ThreadContext) (now : Nat) : Nat :=
  (now % DWORD_MOD + DWORD_MOD - self.last_realloc % DWORD_MOD) % DWORD_MOD

/-- Modelled from the spec: what "fully releases storage" does to the texture pool (it is
part of `Cleanup`, which is only declared in `tls.h`): the buffer goes back to the aligned
allocator, `reserve` becomes 0 and the bytes that were reserved are reported as freed. -/
def SK_DXTex_ThreadContext.releaseAll (self : SK_DXTex_ThreadContext) :
    ReclaimResult SK_DXTex_ThreadContext :=
  { store := { self with buffer := nullptr, reserve := 0 }
    ret := if self.buffer ≠ nullptr then self.reserve else 0
    trace := if self.buffer ≠ nullptr then [Event.aligned_free self.buffer] else [] }

/-- Modelled from the spec: `SK_DXTex_ThreadContext::Cleanup` is only declared in `tls.h`.
For the texture-processing scratch pool, `Periodic` is a conditional compaction: it acts
only if the idle time since the last allocation exceeds the threshold and the current
reserve exceeds the slack threshold, and then fully releases the storage; otherwise it is a
no-op.  `Unload` always fully releases, whatever the idle time and the reserve.  The value
returned is the number of bytes freed.  `now` is the reading of the millisecond clock. -/
def SK_DXTex_ThreadContext.Cleanup (self : SK_DXTex_ThreadContext) (now : Nat)
    (reason : SK_TLS_CleanupReason_e) : ReclaimResult SK_DXTex_ThreadContext :=
  match reason with
  | .Unload => self.releaseAll
  | .Periodic =>
    if self.idle now > SK_DXTex_ThreadContext._TimeBetweenTrims ∧
        self.reserve > SK_DXTex_ThreadContext._SlackSpace then
      self.releaseAll
    else
      { store := self, ret := 0, trace := [] }

/-- What happens, in order, when an `SK_TLS` object is destroyed. -/
inductive TlsEvent where
  | Cleanup (reason : SK_TLS_CleanupReason_e)
  | destroy_members
  deriving DecidableEq, Repr

/-- The default argument of `SK_TLS::Cleanup (SK_TLS_CleanupReason_e reason = Unload)`. -/
def SK_TLS.Cleanup_default : SK_TLS_CleanupReason_e := .Unload

/-- The destructor `SK_TLS::~SK_TLS`: its body is the one statement `Cleanup ();`, after
which, as for every C++ destructor, the data members are destroyed. -/
def SK_TLS.destructor : List TlsEvent :=
  [TlsEvent.Cleanup SK_TLS.Cleanup_default] ++ [TlsEvent.destroy_members]

/-- The Windows `BOOL`, an `int`. -/
abbrev BOOL := Int

/-- The `BOOL` variables of the program, by address. -/
abbrev Vars := Nat → BOOL

/-- The assignment `*p = v`. -/
def Vars.write (vars : Vars) (p : Nat) (v : BOOL) : Vars :=
  fun a => if a = p then v else vars a

/-- A sequence of assignments `*p = v`, in program order. -/
def Vars.writes (vars : Vars) (ws : List (Nat × BOOL)) : Vars :=
  ws.foldl (fun m w => m.write w.1 w.2) vars

/-- The data members of `SK_ScopedBool`. -/
structure SK_ScopedBool where
  pBool_ : Nat
  bOrig_ : BOOL
  deriving DecidableEq, Repr

/-- The constructor `SK_ScopedBool (BOOL *pBool)`. -/
def SK_ScopedBool.ctor (vars : Vars) (pBool : Nat) : SK_ScopedBool :=
  { pBool_ := pBool, bOrig_ := vars pBool }

/-- The move constructor `SK_ScopedBool (SK_ScopedBool&& T)`: the new guard (first
component) takes `T.pBool_` and `T.bOrig_`; `std::exchange` leaves `*T.pBool_` in
`T.bOrig_` (second component). -/
def SK_ScopedBool.moveCtor (vars : Vars) (T : SK_ScopedBool) : SK_ScopedBool × SK_ScopedBool :=
  ({ pBool_ := T.pBool_, bOrig_ := T.bOrig_ }, { pBool_ := T.pBool_, bOrig_ := vars T.pBool_ })

/-- The destructor `~SK_ScopedBool`: `*pBool_ = bOrig_`. -/
def SK_ScopedBool.dtor (vars : Vars) (self : SK_ScopedBool) : Vars :=
  vars.write self.pBool_ self.bOrig_

/-- `SK_ScopedBool::getDestPtr ()`. -/
def SK_ScopedBool.getDestPtr (self : SK_ScopedBool) : Nat := self.pBool_

/-- Variables that all hold `FALSE`. -/
def allFalse : Vars := fun _ => 0

/-- A caller that constructs guard `A` on `b`, moves it into guard `B`, then destroys `A`
and after that `B`; `w1`, `w2`, `w3` are the assignments made before the move, between the
move and the first destruction, and between the two destructions. -/
def movedFromDiesFirst (vars : Vars) (b : Nat) (w1 w2 w3 : List (Nat × BOOL)) : Vars :=
  let A := SK_ScopedBool.ctor vars b
  let moved := SK_ScopedBool.moveCtor (vars.writes w1) A
  let afterA := moved.2.dtor ((vars.writes w1).writes w2)
  moved.1.dtor (afterA.writes w3)

/-- The same caller, destroying `B` first and the moved-from guard `A` after it. -/
def movedFromDiesLast (vars : Vars) (b : Nat) (w1 w2 w3 : List (Nat × BOOL)) : Vars :=
  let A := SK_ScopedBool.ctor vars b
  let moved := SK_ScopedBool.moveCtor (vars.writes w1) A
  let afterB := moved.1.dtor ((vars.writes w1).writes w2)
  moved.2.dtor (afterB.writes w3)

/-- Conversion of an integer to `int32_t`: two's complement wrap-around. -/
def toInt32 (x : Int) : Int := (x + 2147483648) % 4294967296 - 2147483648

/-- The macro `LIMIT_APPLY` of `framerate.h`. -/
def LIMIT_APPLY : Int := 0

/-- The data member `limit_behavior` of `SK::Framerate::Limiter`, with its default
initialiser (the other members play no part in `suspend` and `resume`). -/
structure Limiter where
  limit_behavior : Int := LIMIT_APPLY
  deriving DecidableEq, Repr

/-- `Limiter::suspend ()`: `return ++limit_behavior;`.  The first component is the object
after the call, the second the value returned. -/
def Limiter.suspend (self : Limiter) : Limiter × Int :=
  let v := toInt32 (self.limit_behavior + 1)
  ({ limit_behavior := v }, v)

/-- `Limiter::resume ()`: `return --limit_behavior;`. -/
def Limiter.resume (self : Limiter) : Limiter × Int :=
  let v := toInt32 (self.limit_behavior - 1)
  ({ limit_behavior := v }, v)

/-- A call of one of the two members. -/
inductive LimiterCall where
  | suspend
  | resume
  deriving DecidableEq, Repr

/-- The call made on the object. -/
def Limiter.call (self : Limiter) : LimiterCall → Limiter × Int
  | .suspend => self.suspend
  | .resume => self.resume

/-- A sequence of calls made on the object, in order. -/
def Limiter.calls (self : Limiter) (cs : List LimiterCall) : Limiter :=
  cs.foldl (fun l c => (l.call c).1) self

/-- The macro `MAX_SAMPLES` of `framerate.h`. -/
def MAX_SAMPLES : Nat := 120

/-- `Stats::sample_t`: a value, of a type `V` that stands for `long double`, and the time
`when.QuadPart` at which it was taken. -/
structure sample_t (V : Type) where
  val : V
  when : Int

/-- `Stats::calcHitches (tolerance, mean, start)` over the window `data`.  `mul` and `gt`
stand for the `long double` operations `*` and `>`; the pair carried through the loop is
`(hitches, last_late)`. -/
def Stats.calcHitches {V : Type} (mul : V → V → V) (gt : V → V → Bool)
    (data : List (sample_t V)) (tolerance mean : V) (start : Int) : Nat :=
  (data.foldl
    (fun (acc : Nat × Bool) datum =>
      if datum.when ≥ start then
        if gt datum.val (mul tolerance mean) = true then
          (if acc.2 = false then acc.1 + 1 else acc.1, true)
        else
          (acc.1, false)
      else acc)
    (0, false)).1

/-- `Stats::calcNumSamples (start)` over the window `data`. -/
def Stats.calcNumSamples {V : Type} (data : List (sample_t V)) (start : Int) : Nat :=
  data.foldl (fun samples_used datum => if datum.when ≥ start then samples_used + 1
    else samples_used) 0

/-- The samples of the window that qualify (`when >= start`), in window order, each marked
late (`val > tolerance * mean`) or not. -/
def lateMarks {V : Type} (mul : V → V → V) (gt : V → V → Bool)
    (data : List (sample_t V)) (tolerance mean : V) (start : Int) : List Bool :=
  (data.filter (fun datum => decide (datum.when ≥ start))).map
    (fun datum => gt datum.val (mul tolerance mean))

/-- The number of maximal runs of `true` in a list of marks: every maximal run has exactly
one last element, a `true` that is not followed by a `true`, and these are counted. -/
def maximalRuns : List Bool → Nat
  | [] => 0
  | b :: rest =>
    (if b = true ∧ rest.head? ≠ some true then 1 else 0) + maximalRuns rest

/-- The globals of `injection.cpp` that the shell-hook functions read and write. -/
structure HookGlobals where
  g_hHookShell : Nat := nullptr
  __SK_HookContextOwner : Nat := 0
  g_uiBroadcastMsg : Nat := 0x0400
  deriving DecidableEq, Repr

/-- `SKX_InstallShellHook ()`.  What the system answers is given: `isThisDll` is the outcome
of `hMod == SK_GetDLL ()`, `msg` the value of `RegisterWindowMessageW` and `hHook` the
handle returned by `SetWindowsHookEx` (`0` on failure). -/
def SKX_InstallShellHook (g : HookGlobals) (isThisDll : Bool) (msg hHook : Nat) :
    HookGlobals :=
  if g.g_hHookShell ≠ nullptr then g
  else if isThisDll = true then
    let g1 : HookGlobals := { g with g_uiBroadcastMsg := msg }
    let g2 : HookGlobals := { g1 with g_hHookShell := hHook }
    if g2.g_hHookShell ≠ 0 then { g2 with __SK_HookContextOwner := 1 } else g2
  else g

/-- `SKX_RemoveShellHook ()`.  `msg` is the value of `RegisterWindowMessageW` and
`unhooked` whether `UnhookWindowsHookEx` succeeded. -/
def SKX_RemoveShellHook (g : HookGlobals) (msg : Nat) (unhooked : Bool) : HookGlobals :=
  if g.g_hHookShell ≠ nullptr then
    let g1 : HookGlobals := { g with g_uiBroadcastMsg := msg }
    if unhooked = true then { g1 with __SK_HookContextOwner := 0, g_hHookShell := nullptr }
    else g1
  else g

/-- `SKX_IsHookingShell ()`. -/
def SKX_IsHookingShell (g : HookGlobals) : Bool := decide (g.g_hHookShell ≠ nullptr)

/-- A call of one of the two exported functions, with the answers of the system. -/
inductive HookCall where
  | SKX_InstallShellHook (isThisDll : Bool) (msg hHook : Nat)
  | SKX_RemoveShellHook (msg : Nat) (unhooked : Bool)
  deriving DecidableEq, Repr

/-- The call made on the globals. -/
def HookGlobals.call (g : HookGlobals) : HookCall → HookGlobals
  | .SKX_InstallShellHook isThisDll msg hHook => SKX_InstallShellHook g isThisDll msg hHook
  | .SKX_RemoveShellHook msg unhooked => SKX_RemoveShellHook g msg unhooked

/-- A sequence of calls made in one process, in order. -/
def HookGlobals.calls (g : HookGlobals) (cs : List HookCall) : HookGlobals :=
  cs.foldl HookGlobals.call g

/-- A window of `MAX_SAMPLES` samples taken at the times 0, 1, ..., 119 whose values repeat
0, 1, 2. -/
def sawtooth : List (sample_t Int) :=
  (List.range MAX_SAMPLES).map (fun i => { val := (i % 3 : Nat), when := i })

/-! ## One call: what `alloc` and `reclaim` do to the store and which calls they make -/

theorem Policy.alloc_store (p : Policy) (E : Env) (s : SK_TLS_DataStore) (mem : Mem)
    (n : Nat) (z : Bool) (r : Nat) :
    (p.alloc E s mem n z r).store =
      if s.data = nullptr ∨ s.len < n then
        (if r = nullptr then { data := r, len := 0 } else { data := r, len := max s.len n })
      else s := by
  cases p <;>
    simp only [Policy.alloc, SK_TLS_HeapDataStore.alloc, SK_TLS_LocalDataStore.alloc,
      SK_LocalAlloc] <;>
    split_ifs <;> rfl

theorem Policy.alloc_ret (p : Policy) (E : Env) (s : SK_TLS_DataStore) (mem : Mem)
    (n : Nat) (z : Bool) (r : Nat) :
    (p.alloc E s mem n z r).ret = (p.alloc E s mem n z r).store.data := by
  cases p <;>
    simp only [Policy.alloc, SK_TLS_HeapDataStore.alloc, SK_TLS_LocalDataStore.alloc,
      SK_LocalAlloc] <;>
    split_ifs <;> rfl

theorem Policy.alloc_trace_keep (p : Policy) (E : Env) (s : SK_TLS_DataStore) (mem : Mem)
    (n : Nat) (z : Bool) (r : Nat) (hd : s.data ≠ nullptr) (hn : n ≤ s.len) :
    (p.alloc E s mem n z r).trace = [] := by
  have hc : ¬ (s.data = nullptr ∨ s.len < n) := by
    rintro (h | h)
    · exact hd h
    · omega
  cases p <;>
    simp only [Policy.alloc, SK_TLS_HeapDataStore.alloc, SK_TLS_LocalDataStore.alloc,
      SK_LocalAlloc, if_neg hc] <;>
    split_ifs <;> rfl

theorem Policy.alloc_leakReports (p : Policy) (E : Env) (s : SK_TLS_DataStore) (mem : Mem)
    (n : Nat) (z : Bool) (r : Nat) :
    leakReports (p.alloc E s mem n z r).trace = 0 := by
  cases p <;>
    simp only [Policy.alloc, SK_TLS_HeapDataStore.alloc, SK_TLS_LocalDataStore.alloc,
      SK_LocalAlloc] <;>
    split_ifs <;> simp [leakReports, Event.isLogLeak]

theorem Policy.alloc_no_assert (p : Policy) (E : Env) (s : SK_TLS_DataStore) (mem : Mem)
    (n : Nat) (z : Bool) (r : Nat) :
    Event.assert_failed ∉ (p.alloc E s mem n z r).trace := by
  cases p <;>
    simp only [Policy.alloc, SK_TLS_HeapDataStore.alloc, SK_TLS_LocalDataStore.alloc,
      SK_LocalAlloc] <;>
    split_ifs <;> simp

theorem Policy.alloc_allocations_grow (p : Policy) (E : Env) (s : SK_TLS_DataStore)
    (mem : Mem) (n : Nat) (z : Bool) (r : Nat) (hc : s.data = nullptr ∨ s.len < n) :
    allocations (p.alloc E s mem n z r).trace = 1 ∧
      allocationsSucceed (p.alloc E s mem n z r).trace = decide (r ≠ nullptr) := by
  cases p <;>
    simp only [Policy.alloc, SK_TLS_HeapDataStore.alloc, SK_TLS_LocalDataStore.alloc,
      SK_LocalAlloc, if_pos hc] <;>
    split_ifs <;>
    simp_all [allocations, allocationsSucceed, Event.isAllocation, Event.isFailedAllocation]

theorem Policy.reclaim_store (p : Policy) (E : Env) (s : SK_TLS_DataStore) :
    (p.reclaim E s).store = if 0 < s.len then { data := nullptr, len := 0 } else s := by
  cases p <;>
    simp only [Policy.reclaim, SK_TLS_HeapDataStore.reclaim, SK_TLS_LocalDataStore.reclaim] <;>
    split_ifs <;> simp_all

theorem Policy.reclaim_len (p : Policy) (E : Env) (s : SK_TLS_DataStore) :
    (p.reclaim E s).store.len = 0 := by
  rw [Policy.reclaim_store]
  split_ifs with h
  · rfl
  · omega

theorem Policy.reclaim_of_len_zero (p : Policy) (E : Env) (s : SK_TLS_DataStore)
    (h : s.len = 0) :
    (p.reclaim E s).store = s ∧ (p.reclaim E s).ret = 0 ∧
      leakReports (p.reclaim E s).trace = 0 ∧ releases (p.reclaim E s).trace = 0 := by
  have h0 : ¬ s.len > 0 := by omega
  cases p
  · simp [Policy.reclaim, SK_TLS_HeapDataStore.reclaim, if_neg h0, leakReports, releases]
  · simp only [Policy.reclaim, SK_TLS_LocalDataStore.reclaim, if_neg h0]
    split_ifs <;> simp [leakReports, releases, Event.isLogLeak, Event.isRelease]

theorem Policy.reclaim_live (p : Policy) (E : Env) (s : SK_TLS_DataStore)
    (hl : 0 < s.len) (hd : s.data ≠ nullptr) :
    (p.reclaim E s).trace = [p.release s.data] ∧ (p.reclaim E s).ret = E.bytes s.len := by
  have hl1 : s.len > 0 := hl
  cases p <;>
    simp [Policy.reclaim, SK_TLS_HeapDataStore.reclaim, SK_TLS_LocalDataStore.reclaim,
      if_pos hl1, hd, Policy.release]

theorem Policy.reclaim_leakReports (p : Policy) (E : Env) (s : SK_TLS_DataStore) :
    leakReports (p.reclaim E s).trace = if 0 < s.len ∧ s.data = nullptr then 1 else 0 := by
  cases p <;>
    simp only [Policy.reclaim, SK_TLS_HeapDataStore.reclaim, SK_TLS_LocalDataStore.reclaim] <;>
    split_ifs <;> simp_all [leakReports, Event.isLogLeak]

theorem scratch_mem_s.reclaim_leak_count (s : scratch_mem_s) :
    leakReports s.reclaim.trace = if 0 < s.size ∧ s.storage = nullptr then 1 else 0 := by
  simp only [scratch_mem_s.reclaim]
  split_ifs <;> simp_all [leakReports, Event.isLogLeak]

theorem Env.bytes_of_le (E : Env) (n : Nat) (h : n * E.sizeof_T ≤ E.SIZE_MAX) :
    E.bytes n = n * E.sizeof_T := by
  unfold Env.bytes Env.wrap
  exact Nat.mod_eq_of_lt (by omega)

/-! ## Claims about one or two calls -/

/-- C2: for both stores, every `n > 0` and every prior state, if `alloc (n)` returns
non-null then an immediately following `reclaim ()` releases that storage exactly once
(it is the only outgoing call), returns the length left by the alloc times `sizeof (_T)`
(when this product does not overflow `size_t`), and leaves `len == 0`, `data == nullptr`
and `empty ()` true; on a freshly constructed store the value returned is
`n * sizeof (_T)`. -/
theorem reclaim_after_alloc (p : Policy) (E : Env) (s : SK_TLS_DataStore) (mem : Mem)
    (n : Nat) (z : Bool) (r : Nat) (hn : 0 < n)
    (hret : (p.alloc E s mem n z r).ret ≠ nullptr)
    (hfit : (p.alloc E s mem n z r).store.len * E.sizeof_T ≤ E.SIZE_MAX) :
    (p.reclaim E (p.alloc E s mem n z r).store).trace
        = [p.release (p.alloc E s mem n z r).ret] ∧
      (p.reclaim E (p.alloc E s mem n z r).store).ret
        = (p.alloc E s mem n z r).store.len * E.sizeof_T ∧
      (p.reclaim E (p.alloc E s mem n z r).store).store.len = 0 ∧
      (p.reclaim E (p.alloc E s mem n z r).store).store.data = nullptr ∧
      p.empty (p.reclaim E (p.alloc E s mem n z r).store).store = true ∧
      (s = {} → (p.reclaim E (p.alloc E s mem n z r).store).ret = n * E.sizeof_T) := by
  have hdata : (p.alloc E s mem n z r).store.data ≠ nullptr := by
    rw [← Policy.alloc_ret]; exact hret
  have hlen : 0 < (p.alloc E s mem n z r).store.len := by
    have hst := Policy.alloc_store p E s mem n z r
    rw [hst] at hdata ⊢
    split_ifs with h1 h2
    · rw [if_pos h1, if_pos h2] at hdata
      exact absurd h2 hdata
    · exact lt_of_lt_of_le hn (le_max_right _ _)
    · have : ¬ s.len < n := fun h => h1 (Or.inr h)
      omega
  obtain ⟨ht, hr⟩ := Policy.reclaim_live p E _ hlen hdata
  have hs := Policy.reclaim_store p E (p.alloc E s mem n z r).store
  rw [if_pos hlen] at hs
  rw [Env.bytes_of_le E _ hfit] at hr
  refine ⟨?_, hr, ?_, ?_, ?_, ?_⟩
  · rw [ht, Policy.alloc_ret]
  · rw [hs]
  · rw [hs]
  · rw [hs]; cases p <;> rfl
  · intro hfresh
    rw [hr, Policy.alloc_store, hfresh]
    have hnull : ({} : SK_TLS_DataStore).data = nullptr := rfl
    have hr0 : r ≠ nullptr := by
      intro h0
      apply hdata
      rw [Policy.alloc_store, hfresh, if_pos (Or.inl hnull), if_pos h0, h0]
    rw [if_pos (Or.inl hnull), if_neg hr0]
    show max 0 n * E.sizeof_T = n * E.sizeof_T
    rw [Nat.zero_max]

/-- Witness of C2: a fresh `wchar_t` heap store, `alloc (3)` granted at address 4096. -/
theorem reclaim_after_alloc_witness :
    (0 < 3) ∧ (Policy.Heap.alloc wchar64 {} junk 3 false 4096).ret ≠ nullptr ∧
      (Policy.Heap.reclaim wchar64 (Policy.Heap.alloc wchar64 {} junk 3 false 4096).store).ret
        = 3 * wchar64.sizeof_T :=
  ⟨by decide, by decide,
    (reclaim_after_alloc Policy.Heap wchar64 {} junk 3 false 4096
      (by decide) (by decide) (by decide)).2.2.2.2.2 rfl⟩

theorem returns_nil : returns [] = true := rfl

theorem Policy.reclaim_second_trace (p : Policy) (E : Env) (s : SK_TLS_DataStore)
    (hs : p = Policy.Local → s.len = 0 → s.data = nullptr) :
    (p.reclaim E s).trace ≠ [Event.assert_failed] ∧
      (p.reclaim E (p.reclaim E s).store).trace = [] := by
  cases p
  · simp only [Policy.reclaim, SK_TLS_HeapDataStore.reclaim]
    split_ifs <;> simp_all
  · have hs1 := hs rfl
    simp only [Policy.reclaim, SK_TLS_LocalDataStore.reclaim]
    split_ifs <;> simp_all

/-- C3 as stated fails on the local store in the state with non-null storage and
`len == 0`, the state `alloc (0)` leaves when its zero-byte request is granted: the first
`reclaim ()` reaches `assert (data == nullptr)` with `data == 4096`, the program stops and
no call returns 0. -/
theorem local_reclaim_twice_stops :
    (Policy.Local.alloc char64 {} junk 0 false 4096).store = { data := 4096, len := 0 } ∧
      (Policy.Local.reclaim char64 { data := 4096, len := 0 }).trace
        = [Event.assert_failed] ∧
      returns (Policy.Local.reclaim char64 { data := 4096, len := 0 }).trace = false ∧
      (Policy.Local.reclaim char64 { data := 4096, len := 0 }).value = none ∧
      (Policy.Local.reclaim char64
        (Policy.Local.reclaim char64 { data := 4096, len := 0 }).store).value ≠ some 0 := by
  decide

/-- C3, amended: for every state of the heap store, and for every state of the local store
other than `len == 0` with non-null storage (the illegal state, `len > 0` with null
storage, is included for both), two consecutive `reclaim ()` calls both return, and the
second returns 0, makes no outgoing call (no leak report, no release) and leaves the store
exactly as the first call left it. -/
theorem reclaim_twice_returns (p : Policy) (E : Env) (s : SK_TLS_DataStore)
    (hs : p = Policy.Local → s.len = 0 → s.data = nullptr) :
    returns (p.reclaim E s).trace = true ∧
      returns (p.reclaim E (p.reclaim E s).store).trace = true ∧
      (p.reclaim E (p.reclaim E s).store).value = some 0 ∧
      (p.reclaim E (p.reclaim E s).store).trace = [] ∧
      leakReports (p.reclaim E (p.reclaim E s).store).trace = 0 ∧
      releases (p.reclaim E (p.reclaim E s).store).trace = 0 ∧
      (p.reclaim E (p.reclaim E s).store).store = (p.reclaim E s).store := by
  obtain ⟨h1, h2, h3, h4⟩ :=
    Policy.reclaim_of_len_zero p E (p.reclaim E s).store (Policy.reclaim_len p E s)
  obtain ⟨_, ht⟩ := Policy.reclaim_second_trace p E s hs
  have hfirst : returns (p.reclaim E s).trace = true := by
    cases p
    · simp only [Policy.reclaim, SK_TLS_HeapDataStore.reclaim]
      split_ifs <;> simp [returns]
    · have hs1 := hs rfl
      simp only [Policy.reclaim, SK_TLS_LocalDataStore.reclaim]
      split_ifs with a b c
      · simp [returns]
      · simp [returns]
      · simp [returns]
      · exact absurd (hs1 (by omega)) c
  refine ⟨hfirst, ?_, ?_, ht, h3, h4, h1⟩
  · rw [ht]; rfl
  · simp only [ReclaimResult.value, ht, returns_nil, if_true, h2]

/-- Witness of C3, amended: a local store of 8 elements at 4096. -/
theorem reclaim_twice_returns_witness :
    (Policy.Local = Policy.Local →
        ({ data := 4096, len := 8 } : SK_TLS_DataStore).len = 0 →
        ({ data := 4096, len := 8 } : SK_TLS_DataStore).data = nullptr) ∧
      returns (Policy.Local.reclaim char64 { data := 4096, len := 8 }).trace = true ∧
      (Policy.Local.reclaim char64
        (Policy.Local.reclaim char64 { data := 4096, len := 8 }).store).value = some 0 :=
  ⟨fun _ h => absurd h (by decide),
    (reclaim_twice_returns Policy.Local char64 { data := 4096, len := 8 }
      (fun _ h => absurd h (by decide))).1,
    (reclaim_twice_returns Policy.Local char64 { data := 4096, len := 8 }
      (fun _ h => absurd h (by decide))).2.2.1⟩

/-- C5: for both stores, every state and every `n` with which `alloc (n)` takes the
allocation path (`data == nullptr` or `len < n`): when the allocator returns null, `alloc`
returns null and leaves `data == nullptr` and `len == 0`, so `empty ()` is true; the one
allocation request is the only sign of the failure: no leak report, no failed assertion. -/
theorem alloc_failure (p : Policy) (E : Env) (s : SK_TLS_DataStore) (mem : Mem)
    (n : Nat) (z : Bool) (hpath : s.data = nullptr ∨ s.len < n) :
    (p.alloc E s mem n z nullptr).ret = nullptr ∧
      (p.alloc E s mem n z nullptr).store.data = nullptr ∧
      (p.alloc E s mem n z nullptr).store.len = 0 ∧
      p.empty (p.alloc E s mem n z nullptr).store = true ∧
      allocations (p.alloc E s mem n z nullptr).trace = 1 ∧
      leakReports (p.alloc E s mem n z nullptr).trace = 0 ∧
      Event.assert_failed ∉ (p.alloc E s mem n z nullptr).trace := by
  have hs := Policy.alloc_store p E s mem n z nullptr
  rw [if_pos hpath, if_pos rfl] at hs
  refine ⟨?_, ?_, ?_, ?_, (Policy.alloc_allocations_grow p E s mem n z _ hpath).1,
    Policy.alloc_leakReports p E s mem n z _, Policy.alloc_no_assert p E s mem n z _⟩
  · rw [Policy.alloc_ret, hs]
  · rw [hs]
  · rw [hs]
  · rw [hs]; cases p <;> rfl

/-- Witness of C5: a `char` local store holding 8 elements at 4096 is asked for 16 and the
allocator fails. -/
theorem alloc_failure_witness :
    ((4096 : Nat) = nullptr ∨ 8 < 16) ∧
      (Policy.Local.alloc char64 { data := 4096, len := 8 } junk 16 true nullptr).ret
        = nullptr ∧
      (Policy.Local.alloc char64 { data := 4096, len := 8 } junk 16 true nullptr).store.len
        = 0 :=
  ⟨by decide,
    (alloc_failure Policy.Local char64 { data := 4096, len := 8 } junk 16 true
      (by decide)).1,
    (alloc_failure Policy.Local char64 { data := 4096, len := 8 } junk 16 true
      (by decide)).2.2.1⟩

/-- C6: for both stores and every `k > 0`, from the forced state `len == k`,
`data == nullptr`, `reclaim ()` makes exactly one outgoing call, `SK_TLS_LogLeak` with size
argument `k` (so nothing is released), returns 0 and leaves `len == 0` and `empty ()`
true. -/
theorem reclaim_reports_lost_buffer (p : Policy) (E : Env) (k : Nat) (hk : 0 < k) :
    (∃ line, (p.reclaim E { data := nullptr, len := k }).trace
        = [Event.SK_TLS_LogLeak line k]) ∧
      leakReports (p.reclaim E { data := nullptr, len := k }).trace = 1 ∧
      releases (p.reclaim E { data := nullptr, len := k }).trace = 0 ∧
      (p.reclaim E { data := nullptr, len := k }).ret = 0 ∧
      (p.reclaim E { data := nullptr, len := k }).store.len = 0 ∧
      p.empty (p.reclaim E { data := nullptr, len := k }).store = true := by
  have hk1 : k > 0 := hk
  cases p
  · simp [Policy.reclaim, SK_TLS_HeapDataStore.reclaim, hk1, leakReports, releases,
      Event.isLogLeak, Event.isRelease, Policy.empty, SK_TLS_HeapDataStore.empty]
  · simp [Policy.reclaim, SK_TLS_LocalDataStore.reclaim, hk1, leakReports, releases,
      Event.isLogLeak, Event.isRelease, Policy.empty, SK_TLS_LocalDataStore.empty]

/-- Witness of C6: the forced state `len == 5`, `data == nullptr` of a heap store. -/
theorem reclaim_reports_lost_buffer_witness :
    (0 < 5) ∧
      leakReports (Policy.Heap.reclaim char64 { data := nullptr, len := 5 }).trace = 1 ∧
      (Policy.Heap.reclaim char64 { data := nullptr, len := 5 }).ret = 0 :=
  ⟨by decide,
    (reclaim_reports_lost_buffer Policy.Heap char64 5 (by decide)).2.1,
    (reclaim_reports_lost_buffer Policy.Heap char64 5 (by decide)).2.2.2.1⟩

/-- C7 as stated fails for the two-byte element type: a `wchar_t` store in the
invariant-violation state with `len == 5` calls the leak-report hook with size 5, the
element count, while the byte count `len * sizeof (wchar_t)` is 10 (the regular path of the
same function returns 10); for the one-byte types `char` and `BYTE` the two agree. -/
theorem leak_report_size_wchar :
    (Policy.Heap.reclaim wchar64 { data := nullptr, len := 5 }).trace
        = [Event.SK_TLS_LogLeak 154 5] ∧
      (Policy.Local.reclaim wchar64 { data := nullptr, len := 5 }).trace
        = [Event.SK_TLS_LogLeak 233 5] ∧
      wchar64.bytes 5 = 10 ∧ wchar32.bytes 5 = 10 ∧ char64.bytes 5 = 5 ∧ BYTE64.bytes 5 = 5 ∧
      (5 : Nat) ≠ wchar64.bytes 5 ∧
      (Policy.Heap.reclaim wchar64 { data := 4096, len := 5 }).ret = 10 ∧
      (Policy.Local.reclaim wchar64 { data := 4096, len := 5 }).ret = 10 := by
  decide

/-- C7, amended: in the invariant-violation path of `reclaim ()` (`len > 0` and
`data == nullptr`) the one outgoing call is `SK_TLS_LogLeak` with size `len`, the element
count of the lost buffer; that is its byte count `len * sizeof (_T)` for the one-byte
element types (`char`, `BYTE`) and differs from it for a wider type (`wchar_t`). -/
theorem leak_report_size_is_len (p : Policy) (E : Env) (s : SK_TLS_DataStore)
    (hl : 0 < s.len) (hd : s.data = nullptr) :
    (∃ line, (p.reclaim E s).trace = [Event.SK_TLS_LogLeak line s.len]) ∧
      (E.sizeof_T = 1 → s.len ≤ E.SIZE_MAX → E.bytes s.len = s.len) ∧
      (1 < E.sizeof_T → s.len * E.sizeof_T ≤ E.SIZE_MAX → E.bytes s.len ≠ s.len) := by
  have hl1 : s.len > 0 := hl
  refine ⟨?_, ?_, ?_⟩
  · cases p
    · simp [Policy.reclaim, SK_TLS_HeapDataStore.reclaim, hl1, hd]
    · simp [Policy.reclaim, SK_TLS_LocalDataStore.reclaim, hl1, hd]
  · intro h1 hfit
    rw [Env.bytes_of_le E s.len (by rw [h1, Nat.mul_one]; exact hfit), h1, Nat.mul_one]
  · intro h1 hfit
    rw [Env.bytes_of_le E s.len hfit]
    have : s.len * 2 ≤ s.len * E.sizeof_T := Nat.mul_le_mul_left _ h1
    omega

/-- Witness of C7, amended: a `wchar_t` heap store that lost 5 elements. -/
theorem leak_report_size_is_len_witness :
    0 < ({ data := nullptr, len := 5 } : SK_TLS_DataStore).len ∧
      ({ data := nullptr, len := 5 } : SK_TLS_DataStore).data = nullptr ∧
      (∃ line, (Policy.Heap.reclaim wchar64 { data := nullptr, len := 5 }).trace
        = [Event.SK_TLS_LogLeak line 5]) ∧
      wchar64.bytes 5 ≠ 5 :=
  ⟨by decide, by decide,
    (leak_report_size_is_len Policy.Heap wchar64 { data := nullptr, len := 5 }
      (by decide) (by decide)).1,
    (leak_report_size_is_len Policy.Heap wchar64 { data := nullptr, len := 5 }
      (by decide) (by decide)).2.2 (by decide) (by decide)⟩

/-- C8: for both stores and for `scratch_mem_s`, `reclaim ()` calls `SK_TLS_LogLeak` if and
only if the state before the call has a length above 0 and null storage, and then at most
once; `alloc` never calls it. -/
theorem leak_report_iff_violation (p : Policy) (E : Env) (s : SK_TLS_DataStore)
    (d : scratch_mem_s) :
    (0 < leakReports (p.reclaim E s).trace ↔ 0 < s.len ∧ s.data = nullptr) ∧
      leakReports (p.reclaim E s).trace ≤ 1 ∧
      (∀ (mem : Mem) (n : Nat) (z : Bool) (r : Nat),
        leakReports (p.alloc E s mem n z r).trace = 0) ∧
      (0 < leakReports d.reclaim.trace ↔ 0 < d.size ∧ d.storage = nullptr) ∧
      leakReports d.reclaim.trace ≤ 1 := by
  rw [Policy.reclaim_leakReports, scratch_mem_s.reclaim_leak_count]
  refine ⟨?_, ?_, fun mem n z r => Policy.alloc_leakReports p E s mem n z r, ?_, ?_⟩ <;>
    split_ifs <;> simp_all

/-! ## `alloc` on a store that is already large enough -/

theorem Policy.alloc_mem_keep (p : Policy) (E : Env) (s : SK_TLS_DataStore) (mem : Mem)
    (n : Nat) (r : Nat) (hd : s.data ≠ nullptr) (hn : n ≤ s.len) :
    (p.alloc E s mem n true r).mem = memset mem s.data 0 (E.bytes n) := by
  have hc : ¬ (s.data = nullptr ∨ s.len < n) := by
    rintro (h | h)
    · exact hd h
    · omega
  cases p
  · simp only [Policy.alloc, SK_TLS_HeapDataStore.alloc, if_neg hc]
    rw [if_pos ⟨trivial, hd⟩]
  · simp [Policy.alloc, SK_TLS_LocalDataStore.alloc, if_neg hc, RtlZeroMemory]

theorem element_memset_inside (mem : Mem) (base sz n i : Nat) (hi : i < n) :
    element (memset mem base 0 (n * sz)) base sz i = List.replicate sz 0 := by
  have hmul : (i + 1) * sz ≤ n * sz := Nat.mul_le_mul_right sz hi
  have hcongr : ∀ j ∈ List.range sz,
      memset mem base 0 (n * sz) (base + i * sz + j) = (fun _ => 0) j := by
    intro j hj
    have hj1 : j < sz := List.mem_range.mp hj
    have hlt : base + i * sz + j < base + n * sz := by
      have : (i + 1) * sz = i * sz + sz := by ring
      omega
    simp only [memset]
    rw [if_pos ⟨by omega, hlt⟩]
  unfold element
  rw [List.map_congr_left hcongr]
  simp

theorem element_memset_outside (mem : Mem) (base sz n i c : Nat) (hi : n ≤ i) :
    element (memset mem base c (n * sz)) base sz i = element mem base sz i := by
  have hmul : n * sz ≤ i * sz := Nat.mul_le_mul_right sz hi
  unfold element
  apply List.map_congr_left
  intro j _
  simp only [memset]
  rw [if_neg]
  rintro ⟨_, h⟩
  omega

/-- C4 as stated fails when `n * sizeof (_T)` wraps around in `size_t`: a `wchar_t` heap
store with non-null storage and `len == 2 ^ 63` (the state a fresh store is in after
`alloc (2 ^ 63)`, whose request for `2 ^ 64 mod 2 ^ 64 = 0` bytes was granted), asked with
`zero_fill` for `n = 2 ^ 63 <= len` elements, calls `memset` with a count of 0 bytes and
element 0 keeps its old bytes. -/
theorem alloc_zero_fill_wraps :
    (Policy.Heap.alloc wchar64 {} junk (2 ^ 63) false 4096).store
        = { data := 4096, len := 2 ^ 63 } ∧
      (Policy.Heap.alloc wchar64 {} junk (2 ^ 63) false 4096).trace
        = [Event.aligned_malloc 0 16 4096] ∧
      (4096 : Nat) ≠ nullptr ∧
      2 ^ 63 ≤ ({ data := 4096, len := 2 ^ 63 } : SK_TLS_DataStore).len ∧
      wchar64.bytes (2 ^ 63) = 0 ∧
      element (Policy.Heap.alloc wchar64 { data := 4096, len := 2 ^ 63 } junk (2 ^ 63) true 0).mem
        4096 wchar64.sizeof_T 0 = [0xCD, 0xCD] ∧
      element (Policy.Heap.alloc wchar64 { data := 4096, len := 2 ^ 63 } junk (2 ^ 63) true 0).mem
        4096 wchar64.sizeof_T 0 ≠ List.replicate wchar64.sizeof_T 0 := by
  decide

/-- C4, amended: for both stores, every state with non-null storage and every `n <= len`
whose byte count `n * sizeof (_T)` fits `size_t`, `alloc (n, zero_fill = true)` returns the
same storage pointer, leaves the store unchanged, makes no outgoing call (no release, no
allocation), sets the elements at indices `0 .. n-1` to zero and leaves every element at
an index `>= n`, and every byte outside the first `n` elements, as it was. -/
theorem alloc_zero_fill_in_place (p : Policy) (E : Env) (s : SK_TLS_DataStore) (mem : Mem)
    (n : Nat) (r : Nat) (hd : s.data ≠ nullptr) (hn : n ≤ s.len)
    (hfit : n * E.sizeof_T ≤ E.SIZE_MAX) :
    (p.alloc E s mem n true r).ret = s.data ∧
      (p.alloc E s mem n true r).store = s ∧
      (p.alloc E s mem n true r).trace = [] ∧
      (∀ i, i < n →
        element (p.alloc E s mem n true r).mem s.data E.sizeof_T i
          = List.replicate E.sizeof_T 0) ∧
      (∀ i, n ≤ i →
        element (p.alloc E s mem n true r).mem s.data E.sizeof_T i
          = element mem s.data E.sizeof_T i) ∧
      (∀ a, (p.alloc E s mem n true r).mem a
          = if s.data ≤ a ∧ a < s.data + n * E.sizeof_T then 0 else mem a) := by
  have hc : ¬ (s.data = nullptr ∨ s.len < n) := by
    rintro (h | h)
    · exact hd h
    · omega
  have hs := Policy.alloc_store p E s mem n true r
  rw [if_neg hc] at hs
  have hm := Policy.alloc_mem_keep p E s mem n r hd hn
  rw [Env.bytes_of_le E n hfit] at hm
  refine ⟨?_, hs, Policy.alloc_trace_keep p E s mem n true r hd hn, ?_, ?_, ?_⟩
  · rw [Policy.alloc_ret, hs]
  · intro i hi
    rw [hm]
    exact element_memset_inside mem s.data E.sizeof_T n i hi
  · intro i hi
    rw [hm]
    exact element_memset_outside mem s.data E.sizeof_T n i 0 hi
  · intro a
    rw [hm]
    rfl

/-- Witness of C4, amended: a `wchar_t` local store of 8 elements at 4096, asked for 4. -/
theorem alloc_zero_fill_in_place_witness :
    (4096 : Nat) ≠ nullptr ∧ 4 ≤ 8 ∧ 4 * wchar64.sizeof_T ≤ wchar64.SIZE_MAX ∧
      (Policy.Local.alloc wchar64 { data := 4096, len := 8 } junk 4 true 0).store
        = { data := 4096, len := 8 } ∧
      (Policy.Local.alloc wchar64 { data := 4096, len := 8 } junk 4 true 0).trace = [] :=
  ⟨by decide, by decide, by decide,
    (alloc_zero_fill_in_place Policy.Local wchar64 { data := 4096, len := 8 } junk 4 0
      (by decide) (by decide) (by decide)).2.1,
    (alloc_zero_fill_in_place Policy.Local wchar64 { data := 4096, len := 8 } junk 4 0
      (by decide) (by decide) (by decide)).2.2.1⟩

/-- C10 as stated fails on the freshly constructed store: with `n = 0 <= len = 0` the test
`data == nullptr` sends `alloc (0)` down the allocation path, the allocator is called for 0
bytes and the pointer it returns replaces the null storage pointer. -/
theorem alloc_zero_on_fresh_store :
    0 ≤ ({} : SK_TLS_DataStore).len ∧
      (Policy.Heap.alloc char64 {} junk 0 false 4096).trace
        = [Event.aligned_malloc 0 16 4096] ∧
      (Policy.Heap.alloc char64 {} junk 0 false 4096).store.data
        ≠ ({} : SK_TLS_DataStore).data ∧
      (Policy.Local.alloc char64 {} junk 0 false 4096).trace
        = [Event.SK_LocalAlloc LMEM_FIXED 0 4096] ∧
      (Policy.Local.alloc char64 {} junk 0 false 4096).store.data
        ≠ ({} : SK_TLS_DataStore).data := by
  decide

/-- C10, amended: for both stores, every state with non-null storage and every
`n <= len`, `alloc (n, zero_fill)` makes no outgoing call (neither a release nor an
allocation), returns the storage pointer and leaves it and `len` unchanged. -/
theorem alloc_within_capacity (p : Policy) (E : Env) (s : SK_TLS_DataStore) (mem : Mem)
    (n : Nat) (z : Bool) (r : Nat) (hd : s.data ≠ nullptr) (hn : n ≤ s.len) :
    (p.alloc E s mem n z r).trace = [] ∧
      allocations (p.alloc E s mem n z r).trace = 0 ∧
      releases (p.alloc E s mem n z r).trace = 0 ∧
      (p.alloc E s mem n z r).store.data = s.data ∧
      (p.alloc E s mem n z r).store.len = s.len ∧
      (p.alloc E s mem n z r).ret = s.data := by
  have hc : ¬ (s.data = nullptr ∨ s.len < n) := by
    rintro (h | h)
    · exact hd h
    · omega
  have hs := Policy.alloc_store p E s mem n z r
  rw [if_neg hc] at hs
  have ht := Policy.alloc_trace_keep p E s mem n z r hd hn
  refine ⟨ht, ?_, ?_, ?_, ?_, ?_⟩
  · rw [ht]; rfl
  · rw [ht]; rfl
  · rw [hs]
  · rw [hs]
  · rw [Policy.alloc_ret, hs]

/-- Witness of C10, amended: a `char` heap store of 8 elements at 4096, asked for 8. -/
theorem alloc_within_capacity_witness :
    (4096 : Nat) ≠ nullptr ∧ 8 ≤ 8 ∧
      (Policy.Heap.alloc char64 { data := 4096, len := 8 } junk 8 false 0).trace = [] ∧
      (Policy.Heap.alloc char64 { data := 4096, len := 8 } junk 8 false 0).store.len = 8 :=
  ⟨by decide, by decide,
    (alloc_within_capacity Policy.Heap char64 { data := 4096, len := 8 } junk 8 false 0
      (by decide) (by decide)).1,
    (alloc_within_capacity Policy.Heap char64 { data := 4096, len := 8 } junk 8 false 0
      (by decide) (by decide)).2.2.2.2.1⟩

/-! ## Sequences of calls -/

theorem Policy.run_cons (p : Policy) (E : Env) (st : Run) (op : Op) (ops : List Op) :
    p.run E st (op :: ops) = p.run E (p.step E st op) ops := rfl

theorem Policy.run_append (p : Policy) (E : Env) (st : Run) (xs ys : List Op) :
    p.run E st (xs ++ ys) = p.run E (p.run E st xs) ys := by
  simp [Policy.run, List.foldl_append]

theorem Policy.run_snoc (p : Policy) (E : Env) (st : Run) (xs : List Op) (op : Op) :
    p.run E st (xs ++ [op]) = p.step E (p.run E st xs) op := by
  rw [Policy.run_append]; rfl

theorem Policy.step_trace (p : Policy) (E : Env) (st : Run) (op : Op) :
    ∃ t, (p.step E st op).trace = st.trace ++ t := by
  cases op <;> exact ⟨_, rfl⟩

theorem Policy.run_trace (p : Policy) (E : Env) (ops : List Op) :
    ∀ st : Run, ∃ t, (p.run E st ops).trace = st.trace ++ t := by
  induction ops with
  | nil => intro st; exact ⟨[], (List.append_nil _).symm⟩
  | cons op ops ih =>
    intro st
    obtain ⟨t1, h1⟩ := Policy.step_trace p E st op
    obtain ⟨t2, h2⟩ := ih (p.step E st op)
    exact ⟨t1 ++ t2, by rw [Policy.run_cons, h2, h1, List.append_assoc]⟩

theorem allocationsSucceed_append (a b : List Event) :
    allocationsSucceed (a ++ b) = (allocationsSucceed a && allocationsSucceed b) := by
  simp [allocationsSucceed, List.all_append]

theorem leakReports_append (a b : List Event) :
    leakReports (a ++ b) = leakReports a + leakReports b := by
  simp [leakReports, List.countP_append]

/-- A granted (or not needed) allocation leaves `len` at the larger of the old length and
the requested one. -/
theorem Policy.alloc_len_of_succeed (p : Policy) (E : Env) (s : SK_TLS_DataStore) (mem : Mem)
    (n : Nat) (z : Bool) (r : Nat)
    (hok : allocationsSucceed (p.alloc E s mem n z r).trace = true) :
    (p.alloc E s mem n z r).store.len = max s.len n := by
  rw [Policy.alloc_store]
  split_ifs with h1 h2
  · rw [(Policy.alloc_allocations_grow p E s mem n z r h1).2] at hok
    simp [h2] at hok
  · rfl
  · have : ¬ s.len < n := fun h => h1 (Or.inr h)
    exact (max_eq_left (by omega)).symm

theorem Policy.step_len_of_succeed (p : Policy) (E : Env) (st : Run) (c : AllocCall)
    (hok : allocationsSucceed (p.step E st c.op).trace = true) :
    (p.step E st c.op).store.len = max st.store.len c.needed := by
  have ht : (p.step E st c.op).trace
      = st.trace ++ (p.alloc E st.store st.mem c.needed c.zero_fill c.r).trace := rfl
  rw [ht, allocationsSucceed_append, Bool.and_eq_true] at hok
  exact Policy.alloc_len_of_succeed p E st.store st.mem c.needed c.zero_fill c.r hok.2

theorem allocationsSucceed_of_run (p : Policy) (E : Env) (st : Run) (ops : List Op)
    (hok : allocationsSucceed (p.run E st ops).trace = true) :
    allocationsSucceed st.trace = true := by
  obtain ⟨t, ht⟩ := Policy.run_trace p E ops st
  rw [ht, allocationsSucceed_append, Bool.and_eq_true] at hok
  exact hok.1

theorem Policy.run_allocs_len (p : Policy) (E : Env) (calls : List AllocCall) :
    ∀ st : Run, allocationsSucceed (p.run E st (calls.map AllocCall.op)).trace = true →
      (p.run E st (calls.map AllocCall.op)).store.len
        = calls.foldl (fun m c => max m c.needed) st.store.len := by
  induction calls with
  | nil => intro st _; rfl
  | cons c cs ih =>
    intro st hok
    rw [List.map_cons, Policy.run_cons] at hok ⊢
    rw [ih _ hok, List.foldl_cons,
      Policy.step_len_of_succeed p E st c (allocationsSucceed_of_run p E _ _ hok)]

theorem Policy.alloc_legal (p : Policy) (E : Env) (s : SK_TLS_DataStore) (mem : Mem)
    (n : Nat) (z : Bool) (r : Nat) (hs : s.legal) :
    (p.alloc E s mem n z r).store.legal := by
  rw [Policy.alloc_store]
  split_ifs with h1 h2
  · intro _; rfl
  · intro h; exact absurd h h2
  · exact hs

theorem Policy.reclaim_legal (p : Policy) (E : Env) (s : SK_TLS_DataStore) (hs : s.legal) :
    (p.reclaim E s).store.legal := by
  rw [Policy.reclaim_store]
  split_ifs
  · intro _; rfl
  · exact hs

theorem Policy.reclaim_quiet_of_legal (p : Policy) (E : Env) (s : SK_TLS_DataStore)
    (hs : s.legal) : leakReports (p.reclaim E s).trace = 0 := by
  rw [Policy.reclaim_leakReports, if_neg]
  rintro ⟨hl, hd⟩
  have := hs hd
  omega

theorem Policy.step_legal (p : Policy) (E : Env) (st : Run) (op : Op)
    (hs : st.store.legal) (ht : leakReports st.trace = 0) :
    (p.step E st op).store.legal ∧ leakReports (p.step E st op).trace = 0 := by
  cases op with
  | alloc n z r =>
    refine ⟨Policy.alloc_legal p E st.store st.mem n z r hs, ?_⟩
    show leakReports (st.trace ++ (p.alloc E st.store st.mem n z r).trace) = 0
    rw [leakReports_append, ht, Policy.alloc_leakReports]
  | reclaim =>
    refine ⟨Policy.reclaim_legal p E st.store hs, ?_⟩
    show leakReports (st.trace ++ (p.reclaim E st.store).trace) = 0
    rw [leakReports_append, ht, Policy.reclaim_quiet_of_legal p E st.store hs]

theorem Policy.run_legal (p : Policy) (E : Env) (ops : List Op) :
    ∀ st : Run, st.store.legal → leakReports st.trace = 0 →
      (p.run E st ops).store.legal ∧ leakReports (p.run E st ops).trace = 0 := by
  induction ops with
  | nil => intro st hs ht; exact ⟨hs, ht⟩
  | cons op ops ih =>
    intro st hs ht
    obtain ⟨h1, h2⟩ := Policy.step_legal p E st op hs ht
    exact ih _ h1 h2

/-- C1: for both stores, starting from a freshly constructed store, after any sequence of
`alloc` calls (no `reclaim` in between) in which every allocation request was granted,
`len` equals the largest count asked for; `len` does not decrease from one call to the
next; in particular `alloc (n)` followed by `alloc (m)` with `m <= n` leaves
`len == max (n, m) == n`. -/
theorem alloc_sequence_len (p : Policy) (E : Env) (mem : Mem) (calls : List AllocCall)
    (hok : allocationsSucceed (p.run E (fresh mem) (calls.map AllocCall.op)).trace = true) :
    (p.run E (fresh mem) (calls.map AllocCall.op)).store.len = maxNeeded calls ∧
      (∀ pre c suf, calls = pre ++ c :: suf →
        (p.run E (fresh mem) (pre.map AllocCall.op)).store.len
          ≤ (p.run E (fresh mem) ((pre ++ [c]).map AllocCall.op)).store.len) ∧
      (∀ c1 c2, calls = [c1, c2] → c2.needed ≤ c1.needed →
        (p.run E (fresh mem) (calls.map AllocCall.op)).store.len = max c1.needed c2.needed ∧
          max c1.needed c2.needed = c1.needed) := by
  have hlen := Policy.run_allocs_len p E calls (fresh mem) hok
  refine ⟨hlen, ?_, ?_⟩
  · intro pre c suf hsplit
    have hsplit2 : calls.map AllocCall.op
        = (pre ++ [c]).map AllocCall.op ++ suf.map AllocCall.op := by
      rw [hsplit]; simp
    rw [hsplit2, Policy.run_append] at hok
    have hok1 := allocationsSucceed_of_run p E _ _ hok
    rw [List.map_append, List.map_singleton, Policy.run_snoc] at hok1 ⊢
    rw [Policy.step_len_of_succeed p E _ c hok1]
    exact le_max_left _ _
  · intro c1 c2 hc hle
    rw [hlen, hc]
    show max (max 0 c1.needed) c2.needed = max c1.needed c2.needed ∧ _
    rw [Nat.zero_max]
    exact ⟨rfl, max_eq_left hle⟩

/-- Witness of C1: `alloc (4)`, `alloc (9)`, `alloc (3)` on a fresh `wchar_t` heap store,
the two requests that reach the allocator being granted. -/
theorem alloc_sequence_len_witness :
    allocationsSucceed (Policy.Heap.run wchar64 (fresh junk)
        ([{ needed := 4, r := 4096 }, { needed := 9, r := 8192 },
          { needed := 3, r := 0 }].map AllocCall.op)).trace = true ∧
      (Policy.Heap.run wchar64 (fresh junk)
        ([{ needed := 4, r := 4096 }, { needed := 9, r := 8192 },
          { needed := 3, r := 0 }].map AllocCall.op)).store.len
        = maxNeeded [{ needed := 4, r := 4096 }, { needed := 9, r := 8192 },
          { needed := 3, r := 0 }] :=
  ⟨by decide,
    (alloc_sequence_len Policy.Heap wchar64 junk
      [{ needed := 4, r := 4096 }, { needed := 9, r := 8192 }, { needed := 3, r := 0 }]
      (by decide)).1⟩

/-- C9: for both stores, the predicate "`data == nullptr` implies `len == 0`" holds for a
freshly constructed store and is preserved by every `alloc (n, zero_fill)`, whatever the
allocator returns, and by every `reclaim ()`; hence every state reached from a fresh store
through the public operations satisfies it, no call of such a run reports a leak, and a
further `reclaim ()` reports none either. -/
theorem legal_preserved (p : Policy) (E : Env) (s : SK_TLS_DataStore) (hs : s.legal) :
    ({} : SK_TLS_DataStore).legal ∧
      (∀ (mem : Mem) (n : Nat) (z : Bool) (r : Nat), (p.alloc E s mem n z r).store.legal) ∧
      (p.reclaim E s).store.legal ∧
      (∀ (mem : Mem) (ops : List Op),
        (p.run E (fresh mem) ops).store.legal ∧
          leakReports (p.run E (fresh mem) ops).trace = 0 ∧
          leakReports (p.reclaim E (p.run E (fresh mem) ops).store).trace = 0) := by
  have hfresh : ({} : SK_TLS_DataStore).legal := fun _ => rfl
  refine ⟨hfresh, fun mem n z r => Policy.alloc_legal p E s mem n z r hs,
    Policy.reclaim_legal p E s hs, ?_⟩
  intro mem ops
  obtain ⟨h1, h2⟩ := Policy.run_legal p E ops (fresh mem) hfresh rfl
  exact ⟨h1, h2, Policy.reclaim_quiet_of_legal p E _ h1⟩

/-- Witness of C9: a legal `char` local store of 8 elements at 4096; the allocator fails
the request for 16 elements and the store is left legal. -/
theorem legal_preserved_witness :
    ({ data := 4096, len := 8 } : SK_TLS_DataStore).legal ∧
      (Policy.Local.alloc char64 { data := 4096, len := 8 } junk 16 false 0).store.legal ∧
      (Policy.Local.reclaim char64 { data := 4096, len := 8 }).store.legal :=
  ⟨by decide,
    (legal_preserved Policy.Local char64 { data := 4096, len := 8 } (by decide)).2.1
      junk 16 false 0,
    (legal_preserved Policy.Local char64 { data := 4096, len := 8 } (by decide)).2.2.1⟩

/-! ## Growing a store, and zero filling after growth -/

/-- C11: a heap store whose storage is non-null while `len == 0` (the state `alloc (0)`
leaves when the zero-byte request is granted) and that is asked for `n = 5 > len` requests
the new block without releasing the old one, whose address is then overwritten; the local
store in the same state releases it first, as the heap store does when `len > 0`. -/
theorem heap_alloc_drops_zero_length_block :
    (Policy.Heap.alloc char64 {} junk 0 false 4096).store = { data := 4096, len := 0 } ∧
      (Policy.Heap.alloc char64 { data := 4096, len := 0 } junk 5 false 8192).trace
        = [Event.aligned_malloc 5 16 8192] ∧
      releases (Policy.Heap.alloc char64 { data := 4096, len := 0 } junk 5 false 8192).trace
        = 0 ∧
      (Policy.Heap.alloc char64 { data := 4096, len := 0 } junk 5 false 8192).store
        = { data := 8192, len := 5 } ∧
      (Policy.Local.alloc char64 { data := 4096, len := 0 } junk 5 false 8192).trace
        = [Event.SK_LocalFree 4096, Event.SK_LocalAlloc LMEM_FIXED 5 8192] ∧
      (Policy.Heap.alloc char64 { data := 4096, len := 3 } junk 5 false 8192).trace
        = [Event.aligned_free 4096, Event.aligned_malloc 5 16 8192] := by
  decide

theorem Policy.alloc_mem_grow (p : Policy) (E : Env) (s : SK_TLS_DataStore) (mem : Mem)
    (n : Nat) (r : Nat) (hc : s.data = nullptr ∨ s.len < n) (hr : r ≠ nullptr) :
    (p.alloc E s mem n true r).mem
      = memset mem r 0 (E.bytes (if p = Policy.Heap then n else max s.len n)) := by
  cases p
  · simp only [Policy.alloc, SK_TLS_HeapDataStore.alloc, if_pos hc, if_neg hr]
    rw [if_pos ⟨trivial, hr⟩]
    rfl
  · have hz : LPTR &&& LMEM_ZEROINIT ≠ 0 := by decide
    simp only [Policy.alloc, SK_TLS_LocalDataStore.alloc, SK_LocalAlloc, if_pos hc, if_neg hr]
    rw [if_pos ⟨hr, hz⟩]
    rfl

/-- C12 as stated fails when the byte count wraps around in `size_t`: a fresh `wchar_t`
store asked for `2 ^ 63` zero-filled elements requests `2 ^ 64 mod 2 ^ 64 = 0` bytes; when
that request is granted `alloc` returns the non-null block, the heap store calls `memset`
with a count of 0 and the local store asks `SK_LocalAlloc` to zero 0 bytes, and element 0
of the returned buffer keeps the bytes it had. -/
theorem alloc_zero_fill_grow_wraps :
    (Policy.Heap.alloc wchar64 {} junk (2 ^ 63) true 4096).ret = 4096 ∧
      (Policy.Heap.alloc wchar64 {} junk (2 ^ 63) true 4096).trace
        = [Event.aligned_malloc 0 16 4096] ∧
      element (Policy.Heap.alloc wchar64 {} junk (2 ^ 63) true 4096).mem
        4096 wchar64.sizeof_T 0 = [0xCD, 0xCD] ∧
      (Policy.Local.alloc wchar64 {} junk (2 ^ 63) true 4096).ret = 4096 ∧
      (Policy.Local.alloc wchar64 {} junk (2 ^ 63) true 4096).trace
        = [Event.SK_LocalAlloc LPTR 0 4096] ∧
      element (Policy.Local.alloc wchar64 {} junk (2 ^ 63) true 4096).mem
        4096 wchar64.sizeof_T 0 = [0xCD, 0xCD] ∧
      [0xCD, 0xCD] ≠ List.replicate wchar64.sizeof_T 0 := by
  decide

/-- C12, amended: for both stores, every prior state and every `n` such that the byte size
of the buffer, `max (len, n) * sizeof (_T)`, does not overflow `size_t`: if
`alloc (n, zero_fill = true)` returns non-null, then the elements `0 .. n-1` of the
returned buffer are all zero, whether the call reallocated or worked on the existing
storage. -/
theorem alloc_zero_fill_zeroes (p : Policy) (E : Env) (s : SK_TLS_DataStore) (mem : Mem)
    (n : Nat) (r : Nat) (hfit : max s.len n * E.sizeof_T ≤ E.SIZE_MAX)
    (hret : (p.alloc E s mem n true r).ret ≠ nullptr) :
    ∀ i, i < n →
      element (p.alloc E s mem n true r).mem (p.alloc E s mem n true r).ret E.sizeof_T i
        = List.replicate E.sizeof_T 0 := by
  have hfitn : n * E.sizeof_T ≤ E.SIZE_MAX :=
    le_trans (Nat.mul_le_mul_right _ (le_max_right _ _)) hfit
  intro i hi
  rw [Policy.alloc_ret, Policy.alloc_store] at hret ⊢
  by_cases hc : s.data = nullptr ∨ s.len < n
  · rw [if_pos hc] at hret ⊢
    have hr : r ≠ nullptr := by
      intro h0
      rw [if_pos h0] at hret
      exact hret h0
    rw [if_neg hr, Policy.alloc_mem_grow p E s mem n r hc hr]
    show element _ r E.sizeof_T i = _
    by_cases hp : p = Policy.Heap
    · rw [if_pos hp, Env.bytes_of_le E n hfitn]
      exact element_memset_inside mem r E.sizeof_T n i hi
    · rw [if_neg hp, Env.bytes_of_le E _ hfit]
      exact element_memset_inside mem r E.sizeof_T _ i (lt_of_lt_of_le hi (le_max_right _ _))
  · rw [if_neg hc] at hret ⊢
    have hd : s.data ≠ nullptr := fun h => hc (Or.inl h)
    have hn : n ≤ s.len := by
      have : ¬ s.len < n := fun h => hc (Or.inr h)
      omega
    rw [Policy.alloc_mem_keep p E s mem n r hd hn, Env.bytes_of_le E n hfitn]
    exact element_memset_inside mem s.data E.sizeof_T n i hi

/-- Witness of C12, amended: a fresh `wchar_t` local store asked for 3 zero-filled
elements, granted at 4096. -/
theorem alloc_zero_fill_zeroes_witness :
    max ({} : SK_TLS_DataStore).len 3 * wchar64.sizeof_T ≤ wchar64.SIZE_MAX ∧
      (Policy.Local.alloc wchar64 {} junk 3 true 4096).ret ≠ nullptr ∧
      element (Policy.Local.alloc wchar64 {} junk 3 true 4096).mem
        (Policy.Local.alloc wchar64 {} junk 3 true 4096).ret wchar64.sizeof_T 2
        = List.replicate wchar64.sizeof_T 0 :=
  ⟨by decide, by decide,
    alloc_zero_fill_zeroes Policy.Local wchar64 {} junk 3 4096 (by decide) (by decide)
      2 (by decide)⟩

/-! ## The texture pool, `scratch_mem_s`, and the assertion of the local store -/

/-- C13: for the texture pool, `Cleanup (Periodic)` at a moment when the time since the
last allocation does not exceed `_TimeBetweenTrims` leaves the context (buffer and reserve
included) unchanged, releases nothing and returns 0; `Cleanup (Periodic)` after that
threshold has elapsed with `reserve > _SlackSpace` releases the storage completely; and
`Cleanup (Unload)` releases it completely for every idle time and every reserve. -/
theorem dxtex_cleanup (self : SK_DXTex_ThreadContext) (now : Nat) :
    (self.idle now ≤ SK_DXTex_ThreadContext._TimeBetweenTrims →
        (self.Cleanup now .Periodic).store = self ∧
          (self.Cleanup now .Periodic).ret = 0 ∧
          (self.Cleanup now .Periodic).trace = []) ∧
      (SK_DXTex_ThreadContext._TimeBetweenTrims < self.idle now →
        SK_DXTex_ThreadContext._SlackSpace < self.reserve →
        (self.Cleanup now .Periodic).store.reserve = 0 ∧
          (self.Cleanup now .Periodic).store.buffer = nullptr ∧
          (self.buffer ≠ nullptr →
            (self.Cleanup now .Periodic).trace = [Event.aligned_free self.buffer])) ∧
      ((self.Cleanup now .Unload).store.reserve = 0 ∧
        (self.Cleanup now .Unload).store.buffer = nullptr ∧
        (self.buffer ≠ nullptr →
          (self.Cleanup now .Unload).trace = [Event.aligned_free self.buffer])) := by
  refine ⟨?_, ?_, ?_⟩
  · intro h
    have hn : ¬ (self.idle now > SK_DXTex_ThreadContext._TimeBetweenTrims ∧
        self.reserve > SK_DXTex_ThreadContext._SlackSpace) := by
      rintro ⟨h1, _⟩
      omega
    simp only [SK_DXTex_ThreadContext.Cleanup, if_neg hn, and_self]
  · intro h1 h2
    have hp : self.idle now > SK_DXTex_ThreadContext._TimeBetweenTrims ∧
        self.reserve > SK_DXTex_ThreadContext._SlackSpace := ⟨h1, h2⟩
    simp only [SK_DXTex_ThreadContext.Cleanup, if_pos hp, SK_DXTex_ThreadContext.releaseAll]
    exact ⟨trivial, trivial, fun hb => if_pos hb⟩
  · simp only [SK_DXTex_ThreadContext.Cleanup, SK_DXTex_ThreadContext.releaseAll]
    exact ⟨trivial, trivial, fun hb => if_pos hb⟩

/-- Witness of C13: a pool of 9000000 bytes last grown at time 1000, cleaned at time 2000
(idle for 1 s) and at time 40000 (idle for 39 s). -/
theorem dxtex_cleanup_witness :
    (({ buffer := 64, reserve := 9000000, last_realloc := 1000 } :
        SK_DXTex_ThreadContext).idle 2000 ≤ SK_DXTex_ThreadContext._TimeBetweenTrims) ∧
      (({ buffer := 64, reserve := 9000000, last_realloc := 1000 } :
        SK_DXTex_ThreadContext).Cleanup 2000 .Periodic).ret = 0 ∧
      (SK_DXTex_ThreadContext._TimeBetweenTrims
        < ({ buffer := 64, reserve := 9000000, last_realloc := 1000 } :
          SK_DXTex_ThreadContext).idle 40000) ∧
      (SK_DXTex_ThreadContext._SlackSpace < 9000000) ∧
      (({ buffer := 64, reserve := 9000000, last_realloc := 1000 } :
        SK_DXTex_ThreadContext).Cleanup 40000 .Periodic).store.reserve = 0 :=
  ⟨by decide,
    ((dxtex_cleanup { buffer := 64, reserve := 9000000, last_realloc := 1000 } 2000).1
      (by decide)).2.1,
    by decide, by decide,
    ((dxtex_cleanup { buffer := 64, reserve := 9000000, last_realloc := 1000 } 40000).2.1
      (by decide) (by decide)).1⟩

/-- C15: `scratch_mem_s::reclaim ()` on a state with `size > 0` and non-null storage frees
the storage, sets `size` to 0 and returns the prior size, but leaves the freed address in
`storage`; the second `reclaim ()` returns 0 with its assertion `storage == nullptr`
failing. -/
theorem scratch_mem_reclaim_keeps_pointer :
    ({ storage := 4096, size := 24 } : scratch_mem_s).reclaim
        = { store := { storage := 4096, size := 0 }, ret := 24,
            trace := [Event.aligned_free 4096] } ∧
      ({ storage := 4096, size := 24 } : scratch_mem_s).reclaim.store.storage ≠ nullptr ∧
      ({ storage := 4096, size := 24 } : scratch_mem_s).reclaim.store.reclaim
        = { store := { storage := 4096, size := 0 }, ret := 0,
            trace := [Event.assert_failed] } := by
  decide

/-- C16: a freshly constructed local store on which `alloc (0)` is granted a non-null
zero-byte block is left with non-null `data` and `len == 0`; the following `reclaim ()`
takes the `len == 0` branch, where the assertion `data == nullptr` fails (and the block is
not released). -/
theorem local_reclaim_assert_fails :
    (Policy.Local.run char64 (fresh junk) [Op.alloc 0 false 4096]).store
        = { data := 4096, len := 0 } ∧
      (Policy.Local.reclaim char64
        (Policy.Local.run char64 (fresh junk) [Op.alloc 0 false 4096]).store).trace
        = [Event.assert_failed] ∧
      (Policy.Local.run char64 (fresh junk) [Op.alloc 0 false 4096, Op.reclaim]).trace
        = [Event.SK_LocalAlloc LMEM_FIXED 0 4096, Event.assert_failed] := by
  decide

/-! ## The two policies seen from outside -/


theorem Policy.alloc_requests (p : Policy) (E : Env) (s : SK_TLS_DataStore) (mem : Mem)
    (n : Nat) (z : Bool) (r : Nat) :
    requestedSizes (p.alloc E s mem n z r).trace =
      if s.data = nullptr ∨ s.len < n then [E.bytes (max s.len n)] else [] := by
  cases p <;>
    simp only [Policy.alloc, SK_TLS_HeapDataStore.alloc, SK_TLS_LocalDataStore.alloc,
      SK_LocalAlloc] <;>
    split_ifs <;> simp [requestedSizes]

theorem Policy.reclaim_requests (p : Policy) (E : Env) (s : SK_TLS_DataStore) :
    requestedSizes (p.reclaim E s).trace = [] := by
  cases p <;>
    simp only [Policy.reclaim, SK_TLS_HeapDataStore.reclaim, SK_TLS_LocalDataStore.reclaim] <;>
    split_ifs <;> simp [requestedSizes]

theorem Policy.reclaim_ret (p : Policy) (E : Env) (s : SK_TLS_DataStore) :
    (p.reclaim E s).ret = if 0 < s.len ∧ s.data ≠ nullptr then E.bytes s.len else 0 := by
  cases p <;>
    simp only [Policy.reclaim, SK_TLS_HeapDataStore.reclaim, SK_TLS_LocalDataStore.reclaim] <;>
    split_ifs <;> simp_all

theorem Policy.empty_eq (p : Policy) (s : SK_TLS_DataStore) :
    p.empty s = (decide (s.data = nullptr) || decide (s.len = 0)) := by
  cases p <;> rfl

theorem returns_append (a b : List Event) :
    returns (a ++ b) = (returns a && returns b) := by
  simp [returns, List.contains_eq_any_beq, List.any_append, Bool.not_or]

theorem Policy.alloc_returns (p : Policy) (E : Env) (s : SK_TLS_DataStore) (mem : Mem)
    (n : Nat) (z : Bool) (r : Nat) : returns (p.alloc E s mem n z r).trace = true := by
  have h := Policy.alloc_no_assert p E s mem n z r
  simp only [returns, Bool.not_eq_true', List.contains_eq_any_beq, List.any_eq_false,
    beq_iff_eq]
  intro x hx hxe
  exact h (hxe ▸ hx)

theorem Policy.heap_reclaim_returns (E : Env) (s : SK_TLS_DataStore) :
    returns (Policy.Heap.reclaim E s).trace = true := by
  simp only [Policy.reclaim, SK_TLS_HeapDataStore.reclaim]
  split_ifs <;> simp [returns]

theorem Policy.observe_eq (E : Env) (a b : Run) (h : a.store = b.store) (op : Op)
    (hb : returns (Policy.Local.step E b op).trace = true) :
    Policy.Heap.observe E a op = Policy.Local.observe E b op ∧
      Policy.Local.observe E b op ≠ Observed.stopped ∧
      (Policy.Heap.step E a op).store = (Policy.Local.step E b op).store := by
  cases op with
  | alloc n z r =>
    simp only [Policy.observe, Policy.step, Policy.alloc_returns, if_true,
      Policy.alloc_requests, Policy.alloc_ret, Policy.alloc_store, Policy.empty_eq, h,
      ne_eq, not_false_eq_true, and_self, reduceCtorEq]
  | reclaim =>
    have hb2 : returns (Policy.Local.reclaim E b.store).trace = true := by
      have hb1 : returns (b.trace ++ (Policy.Local.reclaim E b.store).trace) = true := hb
      rw [returns_append, Bool.and_eq_true] at hb1
      exact hb1.2
    simp only [Policy.observe, Policy.step, Policy.heap_reclaim_returns, hb2, if_true,
      Policy.reclaim_requests, Policy.reclaim_ret, Policy.reclaim_store, Policy.empty_eq, h,
      ne_eq, not_false_eq_true, and_self, reduceCtorEq]

theorem returns_of_run (p : Policy) (E : Env) (st : Run) (ops : List Op)
    (h : returns (p.run E st ops).trace = true) : returns st.trace = true := by
  obtain ⟨t, ht⟩ := Policy.run_trace p E ops st
  rw [ht, returns_append, Bool.and_eq_true] at h
  exact h.1

theorem Policy.observations_eq (E : Env) (ops : List Op) :
    ∀ a b : Run, a.store = b.store → returns (Policy.Local.run E b ops).trace = true →
      Policy.Heap.observations E a ops = Policy.Local.observations E b ops ∧
        Observed.stopped ∉ Policy.Local.observations E b ops ∧
        (Policy.Heap.run E a ops).store = (Policy.Local.run E b ops).store := by
  induction ops with
  | nil => intro a b h _; exact ⟨rfl, List.not_mem_nil _, h⟩
  | cons op ops ih =>
    intro a b h hb
    rw [Policy.run_cons] at hb
    obtain ⟨h1, h2, h3⟩ := Policy.observe_eq E a b h op (returns_of_run _ E _ ops hb)
    obtain ⟨i1, i2, i3⟩ := ih _ _ h3 hb
    rw [Policy.run_cons, Policy.run_cons]
    refine ⟨?_, ?_, i3⟩
    · simp only [Policy.observations]
      rw [if_neg h2, if_neg (h1 ▸ h2), h1, i1]
    · simp only [Policy.observations]
      rw [if_neg h2]
      intro hmem
      rcases List.mem_cons.mp hmem with hm | hm
      · exact h2 hm.symm
      · exact i2 hm

/-- C17 as stated fails on the sequence `alloc (0)`, granted a non-null zero-byte block,
then `reclaim ()`: the heap store returns 0 from `reclaim ()`, while the local store, in
the same state, fails its `assert (data == nullptr)` and the program stops without a
value. -/
theorem policies_differ_at_assert :
    Policy.Heap.observations char64 (fresh junk) [Op.alloc 0 false 4096, Op.reclaim]
        = [Observed.alloc [0] false 0 false true, Observed.reclaim [] 0 0 false true] ∧
      Policy.Local.observations char64 (fresh junk) [Op.alloc 0 false 4096, Op.reclaim]
        = [Observed.alloc [0] false 0 false true, Observed.stopped] ∧
      Policy.Heap.observations char64 (fresh junk) [Op.alloc 0 false 4096, Op.reclaim]
        ≠ Policy.Local.observations char64 (fresh junk) [Op.alloc 0 false 4096, Op.reclaim] := by
  decide

/-- C17, amended: for every sequence of `alloc (n, zero_fill)` / `reclaim ()` calls and every
outcome of the allocator at each call during which no assertion of the local store fails, a
fresh heap store and a fresh local store show the same bookkeeping call after call:
allocation requests at the same calls and for the same sizes, the same `len` and null-ness
of `data`, `alloc` returning null or non-null alike, and the same values of `reclaim ()` and
`empty ()`; neither program is stopped and the stores end in the same state. -/
theorem policies_observe_alike_unless_stopped (E : Env) (mem : Mem) (ops : List Op)
    (hlive : returns (Policy.Local.run E (fresh mem) ops).trace = true) :
    Policy.Heap.observations E (fresh mem) ops = Policy.Local.observations E (fresh mem) ops ∧
      Observed.stopped ∉ Policy.Local.observations E (fresh mem) ops ∧
      Observed.stopped ∉ Policy.Heap.observations E (fresh mem) ops ∧
      (Policy.Heap.run E (fresh mem) ops).store = (Policy.Local.run E (fresh mem) ops).store := by
  obtain ⟨h1, h2, h3⟩ := Policy.observations_eq E ops (fresh mem) (fresh mem) rfl hlive
  exact ⟨h1, h2, h1 ▸ h2, h3⟩

/-- Witness of C17, amended: `alloc (0)` granted, `alloc (5)` refused, `reclaim ()`,
`alloc (3)` granted, `reclaim ()`, `reclaim ()` on fresh `wchar_t` stores. -/
theorem policies_observe_alike_unless_stopped_witness :
    returns (Policy.Local.run wchar64 (fresh junk)
        [Op.alloc 0 true 4096, Op.alloc 5 false 0, Op.reclaim, Op.alloc 3 true 8,
          Op.reclaim, Op.reclaim]).trace = true ∧
      Policy.Heap.observations wchar64 (fresh junk)
          [Op.alloc 0 true 4096, Op.alloc 5 false 0, Op.reclaim, Op.alloc 3 true 8,
            Op.reclaim, Op.reclaim]
        = Policy.Local.observations wchar64 (fresh junk)
          [Op.alloc 0 true 4096, Op.alloc 5 false 0, Op.reclaim, Op.alloc 3 true 8,
            Op.reclaim, Op.reclaim] :=
  ⟨by decide,
    (policies_observe_alike_unless_stopped wchar64 junk
      [Op.alloc 0 true 4096, Op.alloc 5 false 0, Op.reclaim, Op.alloc 3 true 8,
        Op.reclaim, Op.reclaim] (by decide)).1⟩

/-! ## Destruction of `SK_TLS` and the guard `SK_ScopedBool` -/

/-- C18: the destructor of `SK_TLS` calls `Cleanup` exactly once, with the reason `Unload`
(the default argument, enumerator value 2), never with `Periodic` (value 1), and does so
before the members of the object are destroyed. -/
theorem destructor_cleanup_once :
    SK_TLS.destructor.count (TlsEvent.Cleanup .Unload) = 1 ∧
      SK_TLS.destructor.count (TlsEvent.Cleanup .Periodic) = 0 ∧
      SK_TLS.Cleanup_default = .Unload ∧
      SK_TLS_CleanupReason_e.Unload.value = 2 ∧
      SK_TLS_CleanupReason_e.Periodic.value = 1 ∧
      SK_TLS.destructor = [TlsEvent.Cleanup .Unload, TlsEvent.destroy_members] := by
  decide

theorem Vars.write_same (vars : Vars) (p : Nat) (v : BOOL) : vars.write p v p = v := by
  simp [Vars.write]

theorem Vars.write_other (vars : Vars) (p a : Nat) (v : BOOL) (h : a ≠ p) :
    vars.write p v a = vars a := by
  simp [Vars.write, h]

/-- C19: for every `BOOL` variable `b` and every sequence of assignments made while a guard
constructed on `&b` is alive, after the destructor of the guard `b` holds the value it had
when the guard was constructed, every other variable is as the assignments left it, and
`getDestPtr ()` is `&b`. -/
theorem scoped_bool_restores (vars : Vars) (b : Nat) (ws : List (Nat × BOOL)) :
    (SK_ScopedBool.ctor vars b).dtor (vars.writes ws) b = vars b ∧
      (∀ a, a ≠ b → (SK_ScopedBool.ctor vars b).dtor (vars.writes ws) a = vars.writes ws a) ∧
      (SK_ScopedBool.ctor vars b).getDestPtr = b := by
  refine ⟨Vars.write_same _ _ _, fun a ha => Vars.write_other _ _ _ _ ha, rfl⟩

/-- C20 as stated fails when the guard moved to is destroyed first: `b` is `FALSE` when
guard `A` is constructed, `b = TRUE` is assigned, `A` is moved into `B` (which leaves
`TRUE`, the value of `b` at the move, in `A`); the destructor of `B` restores `FALSE` and
the destructor of `A`, run after it, sets `b` back to `TRUE`. -/
theorem moved_from_guard_overrides :
    allFalse 100 = 0 ∧
      movedFromDiesLast allFalse 100 [(100, 1)] [] [] 100 = 1 ∧
      movedFromDiesLast allFalse 100 [(100, 1)] [] [] 100 ≠ allFalse 100 := by
  decide

/-- C20, amended: when guard `A` (constructed on `b` while `b == v`) is move-constructed
into guard `B`, with arbitrary assignments before and after the move, then once `A` and
after it `B` have been destroyed, `b == v`; destroyed in the other order, `b` ends at the
value it had at the move, which is `v` when `b` still held `v` at that moment. -/
theorem moved_guard_restores (vars : Vars) (b : Nat) (w1 w2 w3 : List (Nat × BOOL)) :
    movedFromDiesFirst vars b w1 w2 w3 b = vars b ∧
      movedFromDiesLast vars b w1 w2 w3 b = vars.writes w1 b ∧
      (vars.writes w1 b = vars b → movedFromDiesLast vars b w1 w2 w3 b = vars b) := by
  have h1 : movedFromDiesFirst vars b w1 w2 w3 b = vars b := Vars.write_same _ _ _
  have h2 : movedFromDiesLast vars b w1 w2 w3 b = vars.writes w1 b := Vars.write_same _ _ _
  exact ⟨h1, h2, fun h => h2.trans h⟩

/-- Witness of C20, amended: `b` is `FALSE`, other variables are assigned before the move
and `b` itself only after it. -/
theorem moved_guard_restores_witness :
    allFalse.writes [(200, 1)] 100 = allFalse 100 ∧
      movedFromDiesLast allFalse 100 [(200, 1)] [(100, 1)] [(100, 5)] 100 = allFalse 100 :=
  ⟨by decide,
    (moved_guard_restores allFalse 100 [(200, 1)] [(100, 1)] [(100, 5)]).2.2 (by decide)⟩

/-! ## The texture-pool thresholds and the limiter counter -/

/-- C21: `_TimeBetweenTrims` is 30000 milliseconds, that is 30 seconds, and `_SlackSpace` is
`8192 << 10 = 8 * 2 ^ 20 = 8388608` bytes (8 MiB); neither value is truncated by the 32-bit
`unsigned long` in which it is written, by `DWORD`, or by a 32-bit or 64-bit `SIZE_T`. -/
theorem dxtex_thresholds :
    SK_DXTex_ThreadContext._TimeBetweenTrims = 30000 ∧
      SK_DXTex_ThreadContext._TimeBetweenTrims = 30 * 1000 ∧
      SK_DXTex_ThreadContext._SlackSpace = 8192 * 2 ^ 10 ∧
      SK_DXTex_ThreadContext._SlackSpace = 8 * 2 ^ 20 ∧
      SK_DXTex_ThreadContext._SlackSpace = 8388608 ∧
      SK_DXTex_ThreadContext._TimeBetweenTrims % DWORD_MOD
        = SK_DXTex_ThreadContext._TimeBetweenTrims ∧
      SK_DXTex_ThreadContext._SlackSpace % 2 ^ 32 = SK_DXTex_ThreadContext._SlackSpace ∧
      SK_DXTex_ThreadContext._SlackSpace % 2 ^ 64 = SK_DXTex_ThreadContext._SlackSpace := by
  decide

theorem toInt32_of_range (x : Int) (h1 : -2147483648 ≤ x) (h2 : x < 2147483648) :
    toInt32 x = x := by
  unfold toInt32
  omega

theorem Limiter.calls_cons (l : Limiter) (c : LimiterCall) (cs : List LimiterCall) :
    l.calls (c :: cs) = (l.call c).1.calls cs := rfl

theorem Limiter.call_counter (l : Limiter) (c : LimiterCall)
    (h1 : -2147483648 < l.limit_behavior) (h2 : l.limit_behavior < 2147483647) :
    (l.call c).1.limit_behavior
      = l.limit_behavior + (([c].count LimiterCall.suspend : Nat) : Int)
        - (([c].count LimiterCall.resume : Nat) : Int) := by
  cases c
  · show toInt32 (l.limit_behavior + 1) = _
    rw [toInt32_of_range _ (by omega) (by omega)]
    simp
  · show toInt32 (l.limit_behavior - 1) = _
    rw [toInt32_of_range _ (by omega) (by omega)]
    simp

theorem Limiter.calls_counter (cs : List LimiterCall) :
    ∀ l : Limiter, -2147483648 ≤ l.limit_behavior - cs.length →
      l.limit_behavior + cs.length < 2147483648 →
      (l.calls cs).limit_behavior
        = l.limit_behavior + ((cs.count LimiterCall.suspend : Nat) : Int)
          - ((cs.count LimiterCall.resume : Nat) : Int) := by
  induction cs with
  | nil => intro l _ _; simp [Limiter.calls]
  | cons c cs ih =>
    intro l h1 h2
    simp only [List.length_cons, Nat.cast_add, Nat.cast_one] at h1 h2
    have hc := Limiter.call_counter l c (by omega) (by omega)
    have hb : ([c].count LimiterCall.suspend : Int) ≤ 1 ∧
        ([c].count LimiterCall.resume : Int) ≤ 1 := by
      cases c <;> simp
    rw [Limiter.calls_cons, ih _ (by omega) (by omega), hc]
    have e1 : (c :: cs).count LimiterCall.suspend
        = [c].count LimiterCall.suspend + cs.count LimiterCall.suspend := by
      rw [← List.count_append]; rfl
    have e2 : (c :: cs).count LimiterCall.resume
        = [c].count LimiterCall.resume + cs.count LimiterCall.resume := by
      rw [← List.count_append]; rfl
    rw [e1, e2]
    push_cast
    ring

/-- C22: for a limiter that starts with `limit_behavior == LIMIT_APPLY == 0` and any
sequence of fewer than `2 ^ 31` calls of `suspend ()` and `resume ()`: the counter ends at
the number of `suspend` calls minus the number of `resume` calls; every call returns the
counter as it has just updated it, which is that difference over the calls made so far;
`suspend ()` followed by `resume ()` restores any prior `int32_t` value; and the counter is
negative only if the sequence has an initial part with more `resume` than `suspend`
calls. -/
theorem limiter_counts (cs : List LimiterCall) (hlen : cs.length < 2 ^ 31) :
    (({} : Limiter).calls cs).limit_behavior
        = ((cs.count LimiterCall.suspend : Nat) : Int)
          - ((cs.count LimiterCall.resume : Nat) : Int) ∧
      (∀ (l : Limiter) (c : LimiterCall), (l.call c).2 = (l.call c).1.limit_behavior) ∧
      (∀ pre c suf, cs = pre ++ c :: suf →
        ((({} : Limiter).calls pre).call c).2
          = (((pre ++ [c]).count LimiterCall.suspend : Nat) : Int)
            - (((pre ++ [c]).count LimiterCall.resume : Nat) : Int)) ∧
      (∀ l : Limiter, -2 ^ 31 ≤ l.limit_behavior → l.limit_behavior < 2 ^ 31 →
        (l.suspend.1.resume).1 = l) ∧
      ((({} : Limiter).calls cs).limit_behavior < 0 →
        ∃ pre suf, cs = pre ++ suf ∧
          pre.count LimiterCall.resume > pre.count LimiterCall.suspend) := by
  have hfresh : ({} : Limiter).limit_behavior = 0 := rfl
  have hrun : ∀ l : List LimiterCall, l.length ≤ cs.length →
      (({} : Limiter).calls l).limit_behavior
        = ((l.count LimiterCall.suspend : Nat) : Int)
          - ((l.count LimiterCall.resume : Nat) : Int) := by
    intro l hl
    have h := Limiter.calls_counter l ({} : Limiter) (by rw [hfresh]; norm_num at hlen; omega)
      (by rw [hfresh]; norm_num at hlen; omega)
    rw [h, hfresh, zero_add]
  have hret : ∀ (l : Limiter) (c : LimiterCall), (l.call c).2 = (l.call c).1.limit_behavior := by
    intro l c
    cases c <;> rfl
  refine ⟨hrun cs le_rfl, hret, ?_, ?_, ?_⟩
  · intro pre c suf hsplit
    have hl : (pre ++ [c]).length ≤ cs.length := by
      rw [hsplit]; simp
    have h := hrun (pre ++ [c]) hl
    rw [hret, ← h]
    simp [Limiter.calls, List.foldl_append]
  · intro l h1 h2
    norm_num at h1 h2
    cases l with
    | mk v =>
      simp only [Limiter.suspend, Limiter.resume, toInt32] at h1 h2 ⊢
      congr 1
      omega
  · intro hneg
    rw [hrun cs le_rfl] at hneg
    exact ⟨cs, [], (List.append_nil cs).symm, by omega⟩

/-- Witness of C22: `resume`, `suspend`, `suspend` on a fresh limiter. -/
theorem limiter_counts_witness :
    [LimiterCall.resume, LimiterCall.suspend, LimiterCall.suspend].length < 2 ^ 31 ∧
      (({} : Limiter).calls
        [LimiterCall.resume, LimiterCall.suspend, LimiterCall.suspend]).limit_behavior
        = (([LimiterCall.resume, LimiterCall.suspend, LimiterCall.suspend].count
            LimiterCall.suspend : Nat) : Int)
          - (([LimiterCall.resume, LimiterCall.suspend, LimiterCall.suspend].count
            LimiterCall.resume : Nat) : Int) :=
  ⟨by decide,
    (limiter_counts [LimiterCall.resume, LimiterCall.suspend, LimiterCall.suspend]
      (by decide)).1⟩

/-! ## Hitches are the maximal runs of late samples -/

theorem maximalRuns_fold (marks : List Bool) :
    ∀ acc : Nat × Bool,
      (marks.foldl
          (fun (acc : Nat × Bool) (b : Bool) =>
            if b = true then (if acc.2 = false then acc.1 + 1 else acc.1, true)
            else (acc.1, false))
          acc).1
        + (if acc.2 = true ∧ marks.head? = some true then 1 else 0)
        = acc.1 + maximalRuns marks := by
  induction marks with
  | nil => intro acc; simp [maximalRuns]
  | cons b rest ih =>
    intro acc
    rw [List.foldl_cons]
    cases b with
    | false =>
      have h := ih (acc.1, false)
      simp only [Bool.false_eq_true, false_and, and_false, if_false, add_zero, maximalRuns,
        zero_add, List.head?_cons, Option.some.injEq] at h ⊢
      exact h
    | true =>
      by_cases ha : acc.2 = true
      · have h := ih (acc.1, true)
        simp only [maximalRuns, if_true, true_and, ha, Bool.true_eq_false, if_false,
          List.head?_cons] at h ⊢
        by_cases hr : rest.head? = some true
        · simp only [hr, if_true, not_true_eq_false, if_false, ne_eq] at h ⊢
          omega
        · simp only [hr, if_false, not_false_eq_true, if_true, ne_eq] at h ⊢
          omega
      · have ha2 : acc.2 = false := by
          cases hacc : acc.2
          · rfl
          · exact absurd hacc ha
        have h := ih (acc.1 + 1, true)
        simp only [maximalRuns, if_true, true_and, ha2, Bool.false_eq_true, false_and,
          if_false, List.head?_cons] at h ⊢
        by_cases hr : rest.head? = some true
        · simp only [hr, if_true, not_true_eq_false, if_false, ne_eq] at h ⊢
          omega
        · simp only [hr, if_false, not_false_eq_true, if_true, ne_eq] at h ⊢
          omega

theorem Stats.calcHitches_fold {V : Type} (mul : V → V → V) (gt : V → V → Bool)
    (tolerance mean : V) (start : Int) (data : List (sample_t V)) :
    ∀ acc : Nat × Bool,
      data.foldl
          (fun (acc : Nat × Bool) datum =>
            if datum.when ≥ start then
              if gt datum.val (mul tolerance mean) = true then
                (if acc.2 = false then acc.1 + 1 else acc.1, true)
              else
                (acc.1, false)
            else acc)
          acc
        = (lateMarks mul gt data tolerance mean start).foldl
            (fun (acc : Nat × Bool) (b : Bool) =>
              if b = true then (if acc.2 = false then acc.1 + 1 else acc.1, true)
              else (acc.1, false))
            acc := by
  induction data with
  | nil => intro acc; rfl
  | cons d ds ih =>
    intro acc
    rw [List.foldl_cons]
    by_cases hq : d.when ≥ start
    · have hf : lateMarks mul gt (d :: ds) tolerance mean start
          = gt d.val (mul tolerance mean) :: lateMarks mul gt ds tolerance mean start := by
        simp [lateMarks, hq]
      rw [hf, List.foldl_cons, if_pos hq, ih]
    · have hf : lateMarks mul gt (d :: ds) tolerance mean start
          = lateMarks mul gt ds tolerance mean start := by
        simp [lateMarks, hq]
      rw [hf, if_neg hq, ih]

theorem Stats.calcNumSamples_fold {V : Type} (mul : V → V → V) (gt : V → V → Bool)
    (tolerance mean : V) (start : Int) (data : List (sample_t V)) :
    ∀ k : Nat,
      data.foldl (fun samples_used datum => if datum.when ≥ start then samples_used + 1
        else samples_used) k
        = k + (lateMarks mul gt data tolerance mean start).length := by
  induction data with
  | nil => intro k; rfl
  | cons d ds ih =>
    intro k
    rw [List.foldl_cons]
    by_cases hq : d.when ≥ start
    · rw [if_pos hq, ih]
      simp [lateMarks, hq]
      omega
    · rw [if_neg hq, ih]
      simp [lateMarks, hq]

theorem lateMarks_length_le {V : Type} (mul : V → V → V) (gt : V → V → Bool)
    (tolerance mean : V) (start : Int) (data : List (sample_t V)) :
    (lateMarks mul gt data tolerance mean start).length ≤ data.length := by
  unfold lateMarks
  rw [List.length_map]
  exact List.length_filter_le _ _

theorem maximalRuns_le (marks : List Bool) :
    maximalRuns marks ≤ (marks.length + 1) / 2 ∧
      (marks.head? ≠ some true → maximalRuns marks ≤ marks.length / 2) := by
  induction marks with
  | nil => simp [maximalRuns]
  | cons b rest ih =>
    obtain ⟨ih1, ih2⟩ := ih
    cases b with
    | false =>
      simp only [maximalRuns, Bool.false_eq_true, false_and, if_false, zero_add,
        List.length_cons]
      exact ⟨by omega, fun _ => by omega⟩
    | true =>
      simp only [maximalRuns, true_and, List.length_cons, List.head?_cons, ne_eq,
        not_true_eq_false, false_implies, and_true]
      by_cases hr : rest.head? = some true
      · rw [if_neg (not_not.mpr hr)]
        omega
      · rw [if_pos hr]
        have := ih2 hr
        omega

/-- C23: for every window of `MAX_SAMPLES = 120` samples and every tolerance, mean and
start, `calcHitches` is the number of maximal runs of late samples (`val > tolerance * mean`)
within the sequence of the samples that qualify (`when >= start`), samples that do not
qualify being skipped without ending a run; hence
`calcHitches <= ceil (calcNumSamples (start) / 2) <= 60`.  The `long double` operations `*`
and `>` are arbitrary. -/
theorem calcHitches_counts_runs {V : Type} (mul : V → V → V) (gt : V → V → Bool)
    (data : List (sample_t V)) (tolerance mean : V) (start : Int)
    (hlen : data.length = MAX_SAMPLES) :
    Stats.calcHitches mul gt data tolerance mean start
        = maximalRuns (lateMarks mul gt data tolerance mean start) ∧
      Stats.calcNumSamples data start = (lateMarks mul gt data tolerance mean start).length ∧
      0 ≤ Stats.calcHitches mul gt data tolerance mean start ∧
      Stats.calcHitches mul gt data tolerance mean start
        ≤ (Stats.calcNumSamples data start + 1) / 2 ∧
      (Stats.calcNumSamples data start + 1) / 2 ≤ 60 := by
  have hruns : Stats.calcHitches mul gt data tolerance mean start
      = maximalRuns (lateMarks mul gt data tolerance mean start) := by
    unfold Stats.calcHitches
    rw [Stats.calcHitches_fold mul gt tolerance mean start data (0, false)]
    have h := maximalRuns_fold (lateMarks mul gt data tolerance mean start) (0, false)
    simp only [Bool.false_eq_true, false_and, if_false, add_zero, zero_add] at h
    exact h
  have hnum : Stats.calcNumSamples data start
      = (lateMarks mul gt data tolerance mean start).length := by
    unfold Stats.calcNumSamples
    rw [Stats.calcNumSamples_fold mul gt tolerance mean start data 0, zero_add]
  have hle := lateMarks_length_le mul gt tolerance mean start data
  rw [hlen] at hle
  have hmax : MAX_SAMPLES = 120 := rfl
  refine ⟨hruns, hnum, Nat.zero_le _, ?_, ?_⟩
  · rw [hruns, hnum]
    exact (maximalRuns_le _).1
  · rw [hnum]
    omega

/-- Witness of C23: the window `sawtooth` with tolerance 1, mean 1 and start 60. -/
theorem calcHitches_counts_runs_witness :
    sawtooth.length = MAX_SAMPLES ∧
      Stats.calcHitches (fun a b => a * b) (fun a b => decide (a > b)) sawtooth 1 1 60
        = maximalRuns (lateMarks (fun a b => a * b) (fun a b => decide (a > b))
            sawtooth 1 1 60) ∧
      Stats.calcHitches (fun a b => a * b) (fun a b => decide (a > b)) sawtooth 1 1 60
        ≤ (Stats.calcNumSamples sawtooth 60 + 1) / 2 :=
  ⟨by simp [sawtooth],
    (calcHitches_counts_runs (fun a b => a * b) (fun a b => decide (a > b)) sawtooth 1 1 60
      (by simp [sawtooth])).1,
    (calcHitches_counts_runs (fun a b => a * b) (fun a b => decide (a > b)) sawtooth 1 1 60
      (by simp [sawtooth])).2.2.2.1⟩

/-! ## The shell hook and its owner flag -/

theorem HookGlobals.call_owner (g : HookGlobals) (c : HookCall)
    (h : g.__SK_HookContextOwner ≠ 0 ↔ g.g_hHookShell ≠ nullptr) :
    (g.call c).__SK_HookContextOwner ≠ 0 ↔ (g.call c).g_hHookShell ≠ nullptr := by
  cases c with
  | SKX_InstallShellHook isThisDll msg hHook =>
    simp only [HookGlobals.call, SKX_InstallShellHook]
    split_ifs with h1 h2 h3
    · exact h
    · simp only [ne_eq, one_ne_zero, not_false_eq_true, true_iff]
      exact h3
    · simp only [ne_eq] at h1 h3 h ⊢
      simp only [nullptr] at h1 h ⊢
      rw [not_not.mp h3]
      simp only [not_true_eq_false, iff_false, not_not]
      by_contra hc
      exact h1 (h.mp hc)
    · exact h
  | SKX_RemoveShellHook msg unhooked =>
    simp only [HookGlobals.call, SKX_RemoveShellHook]
    split_ifs with h1 h2
    · simp
    · exact h
    · exact h

theorem HookGlobals.calls_owner (cs : List HookCall) :
    ∀ g : HookGlobals, (g.__SK_HookContextOwner ≠ 0 ↔ g.g_hHookShell ≠ nullptr) →
      ((g.calls cs).__SK_HookContextOwner ≠ 0 ↔ (g.calls cs).g_hHookShell ≠ nullptr) := by
  induction cs with
  | nil => intro g h; exact h
  | cons c cs ih =>
    intro g h
    exact ih (g.call c) (HookGlobals.call_owner g c h)

/-- C24: starting from `g_hHookShell == nullptr` and `__SK_HookContextOwner == false`, after
any sequence of `SKX_InstallShellHook ()` and `SKX_RemoveShellHook ()` calls in one process,
whatever the system calls return, `__SK_HookContextOwner` is set if and only if
`SKX_IsHookingShell ()` returns true; and `SKX_InstallShellHook ()` called while a hook is
installed changes none of the globals. -/
theorem shell_hook_owner (cs : List HookCall) (g : HookGlobals)
    (hg : g.g_hHookShell ≠ nullptr) :
    ((({} : HookGlobals).calls cs).__SK_HookContextOwner ≠ 0 ↔
        SKX_IsHookingShell (({} : HookGlobals).calls cs) = true) ∧
      (∀ (isThisDll : Bool) (msg hHook : Nat),
        SKX_InstallShellHook g isThisDll msg hHook = g) := by
  constructor
  · have h := HookGlobals.calls_owner cs ({} : HookGlobals) (by decide)
    simp only [SKX_IsHookingShell, decide_eq_true_eq]
    exact h
  · intro isThisDll msg hHook
    simp only [SKX_InstallShellHook, if_pos hg]

/-- Witness of C24: a hook with handle 77 is installed and owned; a further install call
that the system would grant with handle 99 leaves the globals alone. -/
theorem shell_hook_owner_witness :
    ({ g_hHookShell := 77, __SK_HookContextOwner := 1 } : HookGlobals).g_hHookShell
        ≠ nullptr ∧
      SKX_InstallShellHook { g_hHookShell := 77, __SK_HookContextOwner := 1 } true 49152 99
        = { g_hHookShell := 77, __SK_HookContextOwner := 1 } ∧
      ((({} : HookGlobals).calls
          [HookCall.SKX_InstallShellHook true 49152 77,
            HookCall.SKX_RemoveShellHook 49152 false]).__SK_HookContextOwner ≠ 0 ↔
        SKX_IsHookingShell (({} : HookGlobals).calls
          [HookCall.SKX_InstallShellHook true 49152 77,
            HookCall.SKX_RemoveShellHook 49152 false]) = true) :=
  ⟨by decide,
    (shell_hook_owner [] { g_hHookShell := 77, __SK_HookContextOwner := 1 }
      (by decide)).2 true 49152 99,
    (shell_hook_owner
      [HookCall.SKX_InstallShellHook true 49152 77, HookCall.SKX_RemoveShellHook 49152 false]
      { g_hHookShell := 77, __SK_HookContextOwner := 1 } (by decide)).1⟩

end SpecialK
